import Mathlib

/-!
Verification development for a single-player blackjack rules engine.

The definitions below are a shallow embedding of the engine:
cards and hand valuation (deck.py), the dealer agent (dealer.py),
the player account (player.py) and the round state machine together
with the auto-play driver (game_logic.py).

Conventions of the embedding:
  -- Python lists of cards become Lean lists in the same order; the draw
     pile pops from the back of the list, exactly like list.pop().
  -- chip balances and bet amounts are Lean Int, matching Python ints.
     Python floor division n // 2 and int(x * 0.5) / int(x * 2.5) on
     non-negative operands agree with Lean Int division (ediv), which is
     the only regime the engine exercises.
  -- printing, timestamped audit records and log files are I/O
     collaborators, out of scope for the core contract; they are omitted.
  -- random shuffling is modelled by an explicit shuffle parameter on the
     operations that rebuild the shoe.
-/

set_option maxHeartbeats 1000000

namespace Blackjack

/-! ## Cards (deck.py, class Card) -/

inductive Suit where
  | hearts
  | diamonds
  | clubs
  | spades
deriving DecidableEq, Repr

inductive Rank where
  | ace
  | two
  | three
  | four
  | five
  | six
  | seven
  | eight
  | nine
  | ten
  | jack
  | queen
  | king
deriving DecidableEq, Repr

/-- Base value of a rank: faces are 10, the Ace starts as 11
(Card._calculate_value). -/
def Rank.baseValue : Rank → Nat
  | .ace => 11
  | .two => 2
  | .three => 3
  | .four => 4
  | .five => 5
  | .six => 6
  | .seven => 7
  | .eight => 8
  | .nine => 9
  | .ten => 10
  | .jack => 10
  | .queen => 10
  | .king => 10

structure Card where
  suit : Suit
  rank : Rank
deriving DecidableEq, Repr

def Card.value (c : Card) : Nat :=
  c.rank.baseValue

def Card.is_ace (c : Card) : Bool :=
  c.rank == Rank.ace

def Card.is_ten_value (c : Card) : Bool :=
  c.value == 10

/-! ## Hand valuation (deck.py, calculate_hand_value and friends) -/

/-- One step of the first pass of calculate_hand_value: the accumulator is
(total so far with every Ace as 11, number of Aces seen). -/
def countStep (p : Nat × Nat) (c : Card) : Nat × Nat :=
  if c.is_ace then (p.1 + 11, p.2 + 1) else (p.1 + c.value, p.2)

/-- First pass of calculate_hand_value, and the identical counting loop
that is repeated inline inside is_soft_17. -/
def firstPass (cards : List Card) : Nat × Nat :=
  cards.foldl countStep (0, 0)

/-- The adjustment loop of calculate_hand_value: while the total is over 21
and an Ace is still counted as 11, convert one Ace from 11 to 1.  The loop
is phrased as structural recursion on the remaining Ace count. -/
def adjustForAces : Nat → Nat → Nat
  | total, 0 => total
  | total, aces + 1 =>
    if 21 < total then adjustForAces (total - 10) aces else total

def calculate_hand_value (cards : List Card) : Nat :=
  adjustForAces (firstPass cards).1 (firstPass cards).2

def is_blackjack (cards : List Card) : Bool :=
  cards.length == 2 && calculate_hand_value cards == 21

/-- is_soft_17 from deck.py: the hand value must be 17 and the total
computed with every Ace as 11 must itself be 17 with an Ace present. -/
def is_soft_17 (cards : List Card) : Bool :=
  if calculate_hand_value cards ≠ 17 then false
  else if 0 < (firstPass cards).2 ∧ (firstPass cards).1 = 17 then true
  else false

def is_bust (cards : List Card) : Bool :=
  decide (21 < calculate_hand_value cards)

/-- can_split from deck.py: exactly two cards of equal rank. -/
def can_split (cards : List Card) : Bool :=
  match cards with
  | [c0, c1] => c0.rank == c1.rank
  | _ => false

/-! ## Specification-side valuation: totals reachable by assigning each Ace
the value 1 or 11.  Entries are (total, number of Aces counted as 11). -/

def aceAssignTotals : List Card → List (Nat × Nat)
  | [] => [(0, 0)]
  | c :: rest =>
    let ts := aceAssignTotals rest
    if c.is_ace then
      ts.map (fun p => (p.1 + 1, p.2)) ++ ts.map (fun p => (p.1 + 11, p.2 + 1))
    else
      ts.map (fun p => (p.1 + c.value, p.2))

/-- Minimum reachable total: every Ace counted as 1. -/
def minSum : List Card → Nat
  | [] => 0
  | c :: rest => (if c.is_ace then 1 else c.value) + minSum rest

def aceCount : List Card → Nat
  | [] => 0
  | c :: rest => (if c.is_ace then 1 else 0) + aceCount rest

/-! ### Valuation lemmas -/

theorem foldl_countStep (cards : List Card) (t a : Nat) :
    cards.foldl countStep (t, a) =
      (t + minSum cards + 10 * aceCount cards, a + aceCount cards) := by
  induction cards generalizing t a with
  | nil => simp [minSum, aceCount]
  | cons c cs ih =>
    simp only [List.foldl_cons, countStep, minSum, aceCount]
    by_cases hc : c.is_ace = true
    · simp only [hc, if_true, ih, Prod.mk.injEq]
      omega
    · simp only [hc, Bool.false_eq_true, if_false, ih, Prod.mk.injEq]
      omega

theorem firstPass_eq (cards : List Card) :
    firstPass cards = (minSum cards + 10 * aceCount cards, aceCount cards) := by
  have := foldl_countStep cards 0 0
  simpa [firstPass] using this

theorem adjustForAces_eq (n s : Nat) :
    adjustForAces (s + 10 * n) n = s + 10 * min n ((21 - s) / 10) := by
  induction n with
  | zero =>
    rw [adjustForAces]
    omega
  | succ n ih =>
    by_cases hgt : 21 < s + 10 * (n + 1)
    · rw [adjustForAces, if_pos hgt]
      have harg : s + 10 * (n + 1) - 10 = s + 10 * n := by omega
      rw [harg, ih]
      omega
    · rw [adjustForAces, if_neg hgt]
      omega

theorem calculate_hand_value_eq (cards : List Card) :
    calculate_hand_value cards =
      minSum cards + 10 * min (aceCount cards) ((21 - minSum cards) / 10) := by
  rw [calculate_hand_value, firstPass_eq]
  exact adjustForAces_eq (aceCount cards) (minSum cards)

theorem mem_aceAssignTotals (cards : List Card) (t k : Nat) :
    (t, k) ∈ aceAssignTotals cards ↔
      k ≤ aceCount cards ∧ t = minSum cards + 10 * k := by
  induction cards generalizing t k with
  | nil =>
    simp only [aceAssignTotals, minSum, aceCount, List.mem_singleton, Prod.mk.injEq]
    omega
  | cons c cs ih =>
    by_cases hc : c.is_ace = true
    · simp only [aceAssignTotals, hc, if_true, List.mem_append, List.mem_map,
        minSum, aceCount]
      constructor
      · rintro (⟨⟨t', k'⟩, hp, he⟩ | ⟨⟨t', k'⟩, hp, he⟩) <;> cases he <;>
          obtain ⟨h1, h2⟩ := (ih t' k').mp hp <;> omega
      · rintro ⟨hk, ht⟩
        by_cases hk0 : k = 0
        · exact Or.inl ⟨(minSum cs + 10 * k, k), (ih _ k).mpr ⟨by omega, rfl⟩,
            by simp only [Prod.mk.injEq, and_true]; omega⟩
        · exact Or.inr ⟨(minSum cs + 10 * (k - 1), k - 1),
            (ih _ (k - 1)).mpr ⟨by omega, rfl⟩,
            by simp only [Prod.mk.injEq, and_true]; omega⟩
    · simp only [aceAssignTotals, hc, Bool.false_eq_true, if_false, List.mem_map,
        minSum, aceCount]
      constructor
      · rintro ⟨⟨t', k'⟩, hp, he⟩
        cases he
        obtain ⟨h1, h2⟩ := (ih t' k').mp hp
        omega
      · rintro ⟨hk, ht⟩
        exact ⟨(minSum cs + 10 * k, k), (ih _ k).mpr ⟨by omega, rfl⟩,
          by simp only [Prod.mk.injEq, and_true]; omega⟩

/-- C1: calculate_hand_value returns the maximum total not exceeding 21 that
is achievable by assigning each Ace the value 1 or 11 (non-Aces contribute
their fixed base value), or, when no assignment stays within 21, the minimum
achievable over-21 total. -/
theorem calculate_hand_value_optimal (cards : List Card) :
    (∃ p ∈ aceAssignTotals cards, p.1 = calculate_hand_value cards) ∧
    (∀ p ∈ aceAssignTotals cards, p.1 ≤ 21 → p.1 ≤ calculate_hand_value cards) ∧
    (21 < calculate_hand_value cards →
      ∀ p ∈ aceAssignTotals cards, calculate_hand_value cards ≤ p.1) := by
  have hv := calculate_hand_value_eq cards
  set s := minSum cards with hs
  set n := aceCount cards with hn
  have hdm := Nat.div_add_mod (21 - s) 10
  have hml : (21 - s) % 10 < 10 := Nat.mod_lt _ (by norm_num)
  refine ⟨?_, ?_, ?_⟩
  · exact ⟨(s + 10 * min n ((21 - s) / 10), min n ((21 - s) / 10)),
      (mem_aceAssignTotals cards _ _).mpr ⟨by omega, rfl⟩, by omega⟩
  · rintro ⟨t, k⟩ hp hle
    obtain ⟨hk, ht⟩ := (mem_aceAssignTotals cards t k).mp hp
    simp only at hle ⊢
    omega
  · intro hover ⟨t, k⟩ hp
    obtain ⟨hk, ht⟩ := (mem_aceAssignTotals cards t k).mp hp
    simp only
    omega

/-- Witness for C1 at the concrete hand Ace + Nine: its value is 20 and the
assignment counting the Ace as 11 (total 20, one Ace as 11) is at most it. -/
theorem calculate_hand_value_optimal_witness :
    calculate_hand_value [⟨Suit.hearts, Rank.ace⟩, ⟨Suit.spades, Rank.nine⟩] = 20 ∧
    20 ≤ calculate_hand_value [⟨Suit.hearts, Rank.ace⟩, ⟨Suit.spades, Rank.nine⟩] :=
  ⟨by decide,
   (calculate_hand_value_optimal
      [⟨Suit.hearts, Rank.ace⟩, ⟨Suit.spades, Rank.nine⟩]).2.1
      (20, 1) (by decide) (by decide)⟩

/-- C8 counterexample: the hand Ace, Ace, Five has value 17, and that 17 is
achieved with one Ace still counted as 11 (assignment 11 + 1 + 5), yet
is_soft_17 reports false, because the code additionally demands that the
total with every Ace as 11 be 17. -/
theorem is_soft_17_counterexample :
    is_soft_17 [⟨Suit.hearts, Rank.ace⟩, ⟨Suit.spades, Rank.ace⟩,
        ⟨Suit.hearts, Rank.five⟩] = false ∧
    calculate_hand_value [⟨Suit.hearts, Rank.ace⟩, ⟨Suit.spades, Rank.ace⟩,
        ⟨Suit.hearts, Rank.five⟩] = 17 ∧
    ∃ p ∈ aceAssignTotals [⟨Suit.hearts, Rank.ace⟩, ⟨Suit.spades, Rank.ace⟩,
        ⟨Suit.hearts, Rank.five⟩], p.1 = 17 ∧ 1 ≤ p.2 := by
  decide

/-- C8 amended: is_soft_17 returns true iff the hand value is 17, the hand
contains at least one Ace, and the assignment counting every Ace as 11
itself totals 17. -/
theorem is_soft_17_iff (cards : List Card) :
    is_soft_17 cards = true ↔
      (calculate_hand_value cards = 17 ∧ 0 < aceCount cards ∧
       ∃ p ∈ aceAssignTotals cards, p.2 = aceCount cards ∧ p.1 = 17) := by
  have hfp := firstPass_eq cards
  constructor
  · intro h
    rw [is_soft_17] at h
    split at h
    · exact absurd h (by simp)
    · split at h
      · rename_i hv hcond
        rw [hfp] at hcond
        simp only at hcond
        refine ⟨by omega, hcond.1, (minSum cards + 10 * aceCount cards, aceCount cards),
          (mem_aceAssignTotals cards _ _).mpr ⟨le_refl _, rfl⟩, rfl, by omega⟩
      · exact absurd h (by simp)
  · rintro ⟨hv, hpos, ⟨t, k⟩, hp, hk, ht⟩
    obtain ⟨hk', ht'⟩ := (mem_aceAssignTotals cards t k).mp hp
    rw [is_soft_17, if_neg (by omega)]
    rw [if_pos]
    rw [hfp]
    simp only at hk ht ⊢
    omega

/-- Witness for C8 amended at the concrete hand Ace + Six. -/
theorem is_soft_17_iff_witness :
    is_soft_17 [⟨Suit.hearts, Rank.ace⟩, ⟨Suit.spades, Rank.six⟩] = true :=
  (is_soft_17_iff [⟨Suit.hearts, Rank.ace⟩, ⟨Suit.spades, Rank.six⟩]).mpr
    ⟨by decide, by decide, (17, 1), by decide, by decide, by decide⟩

/-! ## The shoe (deck.py, class Deck)

The card list is kept in Python order: deal_card pops from the back. -/

structure Deck where
  cards : List Card
  num_decks : Nat
deriving DecidableEq, Repr

/-- deal_card: returns none and leaves the pile untouched when empty,
otherwise removes and returns the last card. -/
def Deck.deal_card (d : Deck) : Option Card × Deck :=
  match d.cards.getLast? with
  | none => (none, d)
  | some c => (some c, { d with cards := d.cards.dropLast })

/-- deal_cards: draws up to n cards, skipping silently once the pile is
empty, returning them in draw order. -/
def Deck.deal_cards (d : Deck) : Nat → List Card × Deck
  | 0 => ([], d)
  | n + 1 =>
    let (c, d1) := d.deal_card
    let (rest, d2) := d1.deal_cards n
    (match c with
     | some c => c :: rest
     | none => rest, d2)

def Deck.remaining_cards (d : Deck) : Nat :=
  d.cards.length

/-- One full 52-card deck in construction order (suits outer, ranks inner). -/
def standardDeck : List Card :=
  (([Suit.hearts, Suit.diamonds, Suit.clubs, Suit.spades]).map fun s =>
    ([Rank.ace, Rank.two, Rank.three, Rank.four, Rank.five, Rank.six, Rank.seven,
      Rank.eight, Rank.nine, Rank.ten, Rank.jack, Rank.queen, Rank.king]).map
      fun r => Card.mk s r).flatten

/-- Deck._build_deck: num_decks copies of the standard deck. -/
def buildDeck : Nat → List Card
  | 0 => []
  | n + 1 => standardDeck ++ buildDeck n

/-! ## The dealer agent (dealer.py, class Dealer) -/

structure Dealer where
  hand : List Card
  hole_card_hidden : Bool
deriving DecidableEq, Repr

def Dealer.add_card (dl : Dealer) (c : Card) : Dealer :=
  { dl with hand := dl.hand ++ [c] }

def Dealer.add_cards (dl : Dealer) (cs : List Card) : Dealer :=
  { dl with hand := dl.hand ++ cs }

def Dealer.get_value (dl : Dealer) : Nat :=
  calculate_hand_value dl.hand

def Dealer.is_blackjack (dl : Dealer) : Bool :=
  Blackjack.is_blackjack dl.hand

def Dealer.is_bust (dl : Dealer) : Bool :=
  Blackjack.is_bust dl.hand

/-- should_hit: hit below 17; on exactly 17, hit only when the
hits-soft-17 house rule is on and the hand is a (code) soft 17. -/
def Dealer.should_hit (dl : Dealer) (hits_soft_17 : Bool) : Bool :=
  if dl.get_value < 17 then true
  else if dl.get_value = 17 ∧ hits_soft_17 ∧ is_soft_17 dl.hand then true
  else false

def Dealer.reveal_hole_card (dl : Dealer) : Dealer :=
  { dl with hole_card_hidden := false }

def Dealer.clear_hand (_dl : Dealer) : Dealer :=
  { hand := [], hole_card_hidden := true }

/-- The draw loop of Dealer.play_hand: while should_hit holds draw one card,
stopping early when the shoe runs out. -/
def dealerLoop (dl : Dealer) (dk : Deck) (hits_soft_17 : Bool) : Dealer × Deck :=
  if dl.should_hit hits_soft_17 then
    if hne : dk.cards = [] then (dl, dk)
    else
      dealerLoop (dl.add_card (dk.cards.getLast hne))
        { dk with cards := dk.cards.dropLast } hits_soft_17
  else (dl, dk)
termination_by dk.cards.length
decreasing_by
  have h1 := List.length_dropLast dk.cards
  have h2 : 0 < dk.cards.length := List.length_pos.mpr hne
  simpa [h1] using h2

/-- Dealer.play_hand: reveal the hole card, run the draw loop, then the
source has a recovery block that re-runs the same draw-while-cards-remain
loop whenever the final value is still below 17 and cards remain. -/
def Dealer.play_hand (dl : Dealer) (dk : Deck) (hits_soft_17 : Bool) :
    Dealer × Deck :=
  let p := dealerLoop dl.reveal_hole_card dk hits_soft_17
  if p.1.get_value < 17 ∧ 0 < p.2.cards.length then
    dealerLoop p.1 p.2 hits_soft_17
  else p

/-! ### Dealer lemmas -/

theorem dealerLoop_exit (dl : Dealer) (dk : Deck) (h17 : Bool)
    (h : (dealerLoop dl dk h17).2.cards ≠ []) :
    ((dealerLoop dl dk h17).1).should_hit h17 = false := by
  induction dl, dk, h17 using dealerLoop.induct with
  | case1 dl dk h17 hhit hnil =>
    rw [dealerLoop, if_pos hhit, dif_pos hnil] at h
    exact absurd hnil h
  | case2 dl dk h17 hhit hne ih =>
    rw [dealerLoop, if_pos hhit, dif_neg hne] at h ⊢
    exact ih h
  | case3 dl dk h17 hhit =>
    rw [dealerLoop, if_neg hhit]
    exact Bool.eq_false_iff.mpr hhit

theorem should_hit_false_ge (dl : Dealer) (h17 : Bool)
    (h : dl.should_hit h17 = false) : 17 ≤ dl.get_value := by
  rw [Dealer.should_hit] at h
  by_cases hlt : dl.get_value < 17
  · rw [if_pos hlt] at h
    exact absurd h (by simp)
  · omega

/-- C7: with the hits-soft-17 rule off, whenever Dealer.play_hand leaves a
non-empty shoe the dealer finishes on at least 17; and should_hit is true
exactly when the value is below 17, or the value is 17 with the
hits-soft-17 rule on and the hand a soft 17. -/
theorem dealer_stands_at_17 (dl : Dealer) (dk : Deck) :
    ((dl.play_hand dk false).2.cards ≠ [] →
      17 ≤ ((dl.play_hand dk false).1).get_value) ∧
    (∀ h17 : Bool, dl.should_hit h17 = true ↔
      (dl.get_value < 17 ∨
       (dl.get_value = 17 ∧ h17 = true ∧ is_soft_17 dl.hand = true))) := by
  constructor
  · intro hne
    rw [Dealer.play_hand] at hne ⊢
    set p := dealerLoop dl.reveal_hole_card dk false with hp
    by_cases hcond : p.1.get_value < 17 ∧ 0 < p.2.cards.length
    · rw [if_pos hcond] at hne ⊢
      exact should_hit_false_ge _ _ (dealerLoop_exit _ _ _ hne)
    · rw [if_neg hcond] at hne ⊢
      have : 0 < p.2.cards.length := List.length_pos.mpr hne
      omega
  · intro h17
    rw [Dealer.should_hit]
    by_cases hlt : dl.get_value < 17
    · simp [hlt]
    · rw [if_neg hlt]
      by_cases hb : dl.get_value = 17 ∧ h17 = true ∧ is_soft_17 dl.hand = true
      · rw [if_pos hb]
        simp only [true_iff]
        exact Or.inr hb
      · rw [if_neg hb]
        simp only [Bool.false_eq_true, false_iff]
        rintro (h | h)
        · exact hlt h
        · exact hb h

/-- Witness for C7 at a dealer showing King + Queen against a one-card shoe:
the shoe stays non-empty and the dealer finishes on 20. -/
theorem dealer_stands_at_17_witness :
    ((Dealer.play_hand
        ⟨[⟨Suit.spades, Rank.king⟩, ⟨Suit.hearts, Rank.queen⟩], true⟩
        ⟨[⟨Suit.clubs, Rank.two⟩], 6⟩ false).2.cards ≠ []) ∧
    17 ≤ ((Dealer.play_hand
        ⟨[⟨Suit.spades, Rank.king⟩, ⟨Suit.hearts, Rank.queen⟩], true⟩
        ⟨[⟨Suit.clubs, Rank.two⟩], 6⟩ false).1).get_value := by
  have hne : (Dealer.play_hand
      ⟨[⟨Suit.spades, Rank.king⟩, ⟨Suit.hearts, Rank.queen⟩], true⟩
      ⟨[⟨Suit.clubs, Rank.two⟩], 6⟩ false).2.cards ≠ [] := by
    rw [Dealer.play_hand, dealerLoop]
    simp [Dealer.should_hit, Dealer.get_value, Dealer.reveal_hole_card,
      calculate_hand_value, firstPass, countStep, Card.is_ace, Card.value,
      Rank.baseValue, adjustForAces]
  exact ⟨hne, (dealer_stands_at_17 _ _).1 hne⟩

/-! ## Player hands and account (player.py, classes Hand and Player) -/

structure Hand where
  cards : List Card
  bet : Int
  is_doubled_down : Bool
  is_split : Bool
  is_surrendered : Bool
  is_from_split_aces : Bool
deriving DecidableEq, Repr

/-- A freshly constructed empty Hand. -/
def Hand.empty : Hand :=
  { cards := [], bet := 0, is_doubled_down := false, is_split := false,
    is_surrendered := false, is_from_split_aces := false }

def Hand.add_card (h : Hand) (c : Card) : Hand :=
  { h with cards := h.cards ++ [c] }

def Hand.add_cards (h : Hand) (cs : List Card) : Hand :=
  { h with cards := h.cards ++ cs }

def Hand.get_value (h : Hand) : Nat :=
  calculate_hand_value h.cards

def Hand.is_blackjack (h : Hand) : Bool :=
  Blackjack.is_blackjack h.cards

def Hand.is_bust (h : Hand) : Bool :=
  Blackjack.is_bust h.cards

def Hand.can_double_down (h : Hand) : Bool :=
  h.cards.length == 2 && !h.is_doubled_down && !h.is_from_split_aces

def Hand.can_split (h : Hand) : Bool :=
  Blackjack.can_split h.cards && !h.is_split

/-- Hand.double_down marks the hand and doubles its recorded bet.  The
source raises when can_double_down fails; every caller in game_logic.py
checks can_double_down first, so the guard is handled there. -/
def Hand.double_down (h : Hand) : Hand :=
  { h with is_doubled_down := true, bet := h.bet * 2 }

structure Player where
  chips : Int
  hands : List Hand
  current_hand_index : Nat
  total_wins : Nat
  total_losses : Nat
  total_blackjacks : Nat
deriving DecidableEq, Repr

def Player.get_current_hand (p : Player) : Option Hand :=
  p.hands[p.current_hand_index]?

def Player.create_new_hand (p : Player) : Player :=
  { p with hands := [Hand.empty], current_hand_index := 0 }

def Player.clear_hands (p : Player) : Player :=
  { p with hands := [], current_hand_index := 0 }

/-- Player.place_bet: rejects non-positive amounts, insufficient chips and
a hand index out of range; otherwise records the bet on the hand and
debits the chips. -/
def Player.place_bet (p : Player) (amount : Int) (hand_index : Nat) :
    Bool × Player :=
  if amount ≤ 0 then (false, p)
  else if p.chips < amount then (false, p)
  else if p.hands.length ≤ hand_index then (false, p)
  else
    match p.hands[hand_index]? with
    | none => (false, p)
    | some h =>
      (true,
       { p with
         hands := p.hands.set hand_index { h with bet := amount }
         chips := p.chips - amount })

/-- Player.split_hand: pops the second card of the source hand into a new
hand with the same bet, flags both as split (and both as from-split-aces
when either single card is an Ace), debits one extra bet, and inserts the
new hand immediately after the source hand.  The conditional flag
assignments of the source are folded into disjunctions. -/
def Player.split_hand (p : Player) (hand_index : Nat) : Bool × Player :=
  if p.hands.length ≤ hand_index then (false, p)
  else
    match p.hands[hand_index]? with
    | none => (false, p)
    | some hand =>
      if ¬ hand.can_split then (false, p)
      else if p.chips < hand.bet then (false, p)
      else
        match hand.cards.getLast? with
        | none => (false, p)
        | some popped =>
          let remaining := hand.cards.dropLast
          let fromAces :=
            (match remaining.head? with
             | some c0 => c0.rank == Rank.ace
             | none => false) || popped.rank == Rank.ace
          let hand' :=
            { hand with
              cards := remaining
              is_split := true
              is_from_split_aces := fromAces || hand.is_from_split_aces }
          let new_hand : Hand :=
            { cards := [popped], bet := hand.bet, is_doubled_down := false,
              is_split := true, is_surrendered := false,
              is_from_split_aces := fromAces }
          (true,
           { p with
             chips := p.chips - hand.bet
             hands := (p.hands.set hand_index hand').insertIdx
               (hand_index + 1) new_hand })

/-- Player.win: a blackjack win pays int(bet * 2.5), written 5 * bet / 2
(identical on the non-negative bets the engine produces); an ordinary win
pays bet * 2.  An out-of-range index only logs and changes nothing. -/
def Player.win (p : Player) (hand_index : Nat) (is_blackjack : Bool) : Player :=
  if p.hands.length ≤ hand_index then p
  else
    match p.hands[hand_index]? with
    | none => p
    | some hand =>
      let bj := is_blackjack && hand.is_blackjack
      let payout : Int := if bj then 5 * hand.bet / 2 else hand.bet * 2
      { p with
        chips := p.chips + payout
        total_blackjacks :=
          if bj then p.total_blackjacks + 1 else p.total_blackjacks
        total_wins := p.total_wins + 1 }

/-- Player.lose: the bet was already debited at placement; only the loss
counter moves. -/
def Player.lose (p : Player) (_hand_index : Nat) : Player :=
  { p with total_losses := p.total_losses + 1 }

/-- Player.push: returns exactly the stake of the hand. -/
def Player.push (p : Player) (hand_index : Nat) : Player :=
  match p.hands[hand_index]? with
  | some hand => { p with chips := p.chips + hand.bet }
  | none => p

/-! ### Player lemmas and claims C4, C5 -/

/-- C4 counterexample: on a natural blackjack with bet 5 the code credits
int(5 * 2.5) = 12 chips, not the claimed exact 5 * 2.5 = 12.5. -/
theorem player_win_blackjack_counterexample :
    ((Player.win
        { chips := 0,
          hands := [{ cards := [⟨Suit.spades, Rank.ace⟩, ⟨Suit.spades, Rank.king⟩],
                      bet := 5, is_doubled_down := false, is_split := false,
                      is_surrendered := false, is_from_split_aces := false }],
          current_hand_index := 0, total_wins := 0, total_losses := 0,
          total_blackjacks := 0 } 0 true).chips : ℚ) ≠ (2.5 : ℚ) * 5 := by
  have h : (Player.win
      { chips := 0,
        hands := [{ cards := [⟨Suit.spades, Rank.ace⟩, ⟨Suit.spades, Rank.king⟩],
                    bet := 5, is_doubled_down := false, is_split := false,
                    is_surrendered := false, is_from_split_aces := false }],
        current_hand_index := 0, total_wins := 0, total_losses := 0,
        total_blackjacks := 0 } 0 true).chips = 12 := by decide
  rw [h]
  norm_num

/-- C4 amended: with the bet b already debited at placement, a blackjack
win credits int(b * 2.5) = 5 * b / 2 (the exact b * 2.5 only when b is
even), an ordinary win credits b * 2, a push credits b, a loss credits
nothing. -/
theorem player_payouts (p : Player) (i : Nat) (hand : Hand)
    (h : p.hands[i]? = some hand) :
    (hand.is_blackjack = true →
      (p.win i true).chips = p.chips + 5 * hand.bet / 2) ∧
    (p.win i false).chips = p.chips + hand.bet * 2 ∧
    (p.push i).chips = p.chips + hand.bet ∧
    (p.lose i).chips = p.chips := by
  have hlt : i < p.hands.length := by
    by_contra hge
    rw [List.getElem?_eq_none (by omega)] at h
    exact Option.noConfusion h
  refine ⟨?_, ?_, ?_, ?_⟩
  · intro hbj
    rw [Player.win, if_neg (by omega), h]
    simp [hbj]
  · rw [Player.win, if_neg (by omega), h]
    simp
  · rw [Player.push, h]
  · rw [Player.lose]

/-- Witness for C4 amended: bet 4, natural blackjack, push and loss on the
concrete one-hand player. -/
theorem player_payouts_witness :
    ((Player.win
        { chips := 100,
          hands := [{ cards := [⟨Suit.hearts, Rank.ace⟩, ⟨Suit.hearts, Rank.queen⟩],
                      bet := 4, is_doubled_down := false, is_split := false,
                      is_surrendered := false, is_from_split_aces := false }],
          current_hand_index := 0, total_wins := 0, total_losses := 0,
          total_blackjacks := 0 } 0 true).chips = 110) := by
  have hmain := player_payouts
    { chips := 100,
      hands := [{ cards := [⟨Suit.hearts, Rank.ace⟩, ⟨Suit.hearts, Rank.queen⟩],
                  bet := 4, is_doubled_down := false, is_split := false,
                  is_surrendered := false, is_from_split_aces := false }],
      current_hand_index := 0, total_wins := 0, total_losses := 0,
      total_blackjacks := 0 } 0
    { cards := [⟨Suit.hearts, Rank.ace⟩, ⟨Suit.hearts, Rank.queen⟩],
      bet := 4, is_doubled_down := false, is_split := false,
      is_surrendered := false, is_from_split_aces := false } (by decide)
  rw [hmain.1 (by decide)]
  norm_num

theorem set_insertIdx_eq {α : Type} (l : List α) (i : Nat) (h' nh : α)
    (hlt : i < l.length) :
    (l.set i h').insertIdx (i + 1) nh = l.take i ++ h' :: nh :: l.drop (i + 1) := by
  induction l generalizing i with
  | nil => simp at hlt
  | cons x xs ih =>
    cases i with
    | zero => simp [List.insertIdx]
    | succ n =>
      simp only [List.set, List.insertIdx, List.take, List.drop, List.cons_append]
      have := ih n (by simpa using Nat.lt_of_succ_lt_succ hlt)
      simp only [List.insertIdx] at this
      exact congrArg (x :: ·) this

/-- C5: a successful split debits exactly one extra bet, lengthens the hand
list by one, inserts the new hand with the same bet directly after the
source index, flags both halves as split, and flags both halves as
from-split-aces exactly when one of the split cards is an Ace. -/
theorem split_hand_spec (p : Player) (i : Nat) (hand : Hand)
    (hh : p.hands[i]? = some hand)
    (hcs : hand.can_split = true)
    (hchips : hand.bet ≤ p.chips) :
    (p.split_hand i).1 = true ∧
    ∃ c0 c1, hand.cards = [c0, c1] ∧
      (p.split_hand i).2.chips = p.chips - hand.bet ∧
      (p.split_hand i).2.hands =
        p.hands.take i ++
          { hand with
            cards := [c0]
            is_split := true
            is_from_split_aces :=
              ((c0.rank == Rank.ace) || (c1.rank == Rank.ace)) ||
                hand.is_from_split_aces } ::
          ({ cards := [c1], bet := hand.bet, is_doubled_down := false,
             is_split := true, is_surrendered := false,
             is_from_split_aces :=
               (c0.rank == Rank.ace) || (c1.rank == Rank.ace) } : Hand) ::
          p.hands.drop (i + 1) ∧
      (p.split_hand i).2.hands.length = p.hands.length + 1 := by
  have hlt : i < p.hands.length := by
    by_contra hge
    rw [List.getElem?_eq_none (by omega)] at hh
    exact Option.noConfusion hh
  obtain ⟨c0, c1, hcards⟩ : ∃ c0 c1, hand.cards = [c0, c1] := by
    rcases hc : hand.cards with _ | ⟨a, _ | ⟨b, _ | ⟨d, tl⟩⟩⟩ <;>
      simp [Hand.can_split, can_split, hc] at hcs ⊢
  have hncs : ¬ ¬ hand.can_split = true := by simp [hcs]
  have hnc : ¬ p.chips < hand.bet := by omega
  have hlast : hand.cards.getLast? = some c1 := by rw [hcards]; rfl
  have hdrop : hand.cards.dropLast = [c0] := by rw [hcards]; rfl
  have heval : p.split_hand i =
      (true,
       { p with
         chips := p.chips - hand.bet
         hands := (p.hands.set i
           ({ hand with
              cards := [c0]
              is_split := true
              is_from_split_aces :=
                ((c0.rank == Rank.ace) || (c1.rank == Rank.ace)) ||
                  hand.is_from_split_aces })).insertIdx (i + 1)
           ({ cards := [c1], bet := hand.bet, is_doubled_down := false,
              is_split := true, is_surrendered := false,
              is_from_split_aces :=
                (c0.rank == Rank.ace) || (c1.rank == Rank.ace) } : Hand) }) := by
    rw [Player.split_hand, if_neg (by omega), hh]
    dsimp only
    rw [if_neg hncs, if_neg hnc, hlast]
    dsimp only
    rw [hdrop]
    rfl
  rw [heval]
  refine ⟨rfl, c0, c1, hcards, rfl, ?_, ?_⟩
  · dsimp only
    rw [set_insertIdx_eq p.hands i _ _ hlt]
  · dsimp only
    rw [set_insertIdx_eq p.hands i _ _ hlt]
    simp only [List.length_append, List.length_cons, List.length_take,
      List.length_drop]
    omega

/-- Witness for C5: splitting a concrete pair of eights with bet 5 from 10
chips leaves 5 chips and two one-card hands of bet 5 each. -/
theorem split_hand_spec_witness :
    ((Player.split_hand
        { chips := 10,
          hands := [{ cards := [⟨Suit.hearts, Rank.eight⟩, ⟨Suit.spades, Rank.eight⟩],
                      bet := 5, is_doubled_down := false, is_split := false,
                      is_surrendered := false, is_from_split_aces := false }],
          current_hand_index := 0, total_wins := 0, total_losses := 0,
          total_blackjacks := 0 } 0).1 = true) ∧
    ((Player.split_hand
        { chips := 10,
          hands := [{ cards := [⟨Suit.hearts, Rank.eight⟩, ⟨Suit.spades, Rank.eight⟩],
                      bet := 5, is_doubled_down := false, is_split := false,
                      is_surrendered := false, is_from_split_aces := false }],
          current_hand_index := 0, total_wins := 0, total_losses := 0,
          total_blackjacks := 0 } 0).2.chips = 5) := by
  obtain ⟨hs, c0, c1, hcards, hchips, hhands, hlen⟩ := split_hand_spec
    { chips := 10,
      hands := [{ cards := [⟨Suit.hearts, Rank.eight⟩, ⟨Suit.spades, Rank.eight⟩],
                  bet := 5, is_doubled_down := false, is_split := false,
                  is_surrendered := false, is_from_split_aces := false }],
      current_hand_index := 0, total_wins := 0, total_losses := 0,
      total_blackjacks := 0 } 0
    { cards := [⟨Suit.hearts, Rank.eight⟩, ⟨Suit.spades, Rank.eight⟩],
      bet := 5, is_doubled_down := false, is_split := false,
      is_surrendered := false, is_from_split_aces := false }
    (by decide) (by decide) (by decide)
  refine ⟨hs, ?_⟩
  rw [hchips]
  norm_num

/-! ## The round state machine (game_logic.py, class BlackjackGame)

Fields holding audit records, log files and the game id are I/O
collaborators (spec sections 1 and 7d) and are not part of the model.
The force_dealer_hand test hook is modelled on already-validated rank
pairs; set_force_dealer_hand validates the textual form before storing. -/

def GameState.BETTING : String := "betting"

def GameState.DEALING : String := "dealing"

def GameState.PLAYER_TURN : String := "player_turn"

def GameState.DEALER_TURN : String := "dealer_turn"

def GameState.GAME_OVER : String := "game_over"

structure BJGame where
  num_decks : Nat
  deck : Deck
  player : Player
  dealer : Dealer
  state : String
  result : Option String
  min_bet : Int
  max_bet : Int
  dealer_hits_soft_17 : Bool
  insurance_offer_active : Bool
  insurance_for_hand_index : Option Nat
  insurance_amount : Int
  insurance_taken : Bool
  even_money_offer_active : Bool
  insurance_outcome : Option (Bool × Int)
  auto_mode_active : Bool
  auto_hands_remaining : Int
  auto_default_bet : Int
  auto_insurance_mode : Option String
  auto_strategy : String
  auto_betting_strategy : String
  auto_bet_percentage : Option Int
  auto_double_down_pref : String
  auto_split_pref : String
  auto_surrender_pref : String
  auto_progressive_bet : Int
  auto_last_result : Option String
  auto_status : Option String
  dealer_peeked : Bool
  force_dealer_hand : Option (Rank × Rank)
  pending_forced_dealer_cards : Option (Card × Card)
deriving DecidableEq, Repr

/-- The structured result every action returns: success flag, message and
the action-specific flags. -/
structure ARes where
  success : Bool
  message : String
  bust : Bool := false
  game_over : Bool := false
  charlie : Bool := false
  even_money_offered : Bool := false
  dealer_peeked : Bool := false
deriving DecidableEq, Repr

def failRes (msg : String) : ARes :=
  { success := false, message := msg }

def okRes (msg : String) : ARes :=
  { success := true, message := msg }

/-- Replace the hand at an index; models in-place mutation of a Hand that
was fetched from the hands list. -/
def Player.updateHand (p : Player) (i : Nat) (h : Hand) : Player :=
  { p with hands := p.hands.set i h }

/-- _should_dealer_peek: at least two dealer cards and an Ace or ten-value
upcard (the card at index 1). -/
def BJGame.should_dealer_peek (g : BJGame) : Bool :=
  match g.dealer.hand[1]? with
  | none => false
  | some upcard => upcard.rank == Rank.ace || upcard.is_ten_value

/-- Extract the first card of the given rank, scanning from the front of
the pile like list.pop(i). -/
def removeFirstRank : List Card → Rank → Option Card × List Card
  | [], _ => (none, [])
  | c :: rest, r =>
    if c.rank == r then (some c, rest)
    else
      let (found, rest') := removeFirstRank rest r
      (found, c :: rest')

/-- _force_dealer_hand: pull a hole card and an upcard of the configured
ranks out of the shoe; on failure put any found card back at the end of
the pile and clear the pending pair. -/
def BJGame.force_dealer_hand_step (g : BJGame) : BJGame :=
  match g.force_dealer_hand with
  | none => { g with pending_forced_dealer_cards := none }
  | some (hole_rank, upcard_rank) =>
    let (hole_card, deck1) := removeFirstRank g.deck.cards hole_rank
    let (upcard_card, deck2) := removeFirstRank deck1 upcard_rank
    match hole_card, upcard_card with
    | some hc, some uc =>
      { g with
        deck := { g.deck with cards := deck2 }
        pending_forced_dealer_cards := some (hc, uc) }
    | some hc, none =>
      { g with
        deck := { g.deck with cards := deck2 ++ [hc] }
        pending_forced_dealer_cards := none }
    | none, some uc =>
      { g with
        deck := { g.deck with cards := deck2 ++ [uc] }
        pending_forced_dealer_cards := none }
    | none, none =>
      { g with
        deck := { g.deck with cards := deck2 }
        pending_forced_dealer_cards := none }

/-- The two forced-dealer-hand set-up statements at the top of
deal_initial_cards: prepare the forced pair when none is pending, then
re-run the step whenever a forced hand is configured. -/
def BJGame.dealSetupForce (g : BJGame) : BJGame :=
  let g1 :=
    if g.force_dealer_hand.isSome ∧ g.pending_forced_dealer_cards = none
    then g.force_dealer_hand_step else g
  if g1.force_dealer_hand.isSome then g1.force_dealer_hand_step else g1

/-- The settle-all-hands loop of _dealer_peek_and_check_blackjack: hands
holding a blackjack push, every other hand loses; the first outcome fixes
the round result. -/
def peekSettleLoop : List (Nat × Hand) → Player → Option String →
    Player × Option String
  | [], p, r => (p, r)
  | (i, hand) :: rest, p, r =>
    if hand.is_blackjack then
      peekSettleLoop rest (p.push i) (if r = none then some "push" else r)
    else
      peekSettleLoop rest (p.lose i) (if r = none then some "loss" else r)

structure PeekRes where
  peeked : Bool
  game_over : Bool
  dealer_blackjack : Bool := false
deriving DecidableEq, Repr

/-- _dealer_peek_and_check_blackjack: peek at most once; when the hidden
pair is a blackjack, reveal it, settle every player hand, pay a taken
insurance at 2:1 (crediting three times the stake) and end the round. -/
def BJGame.dealer_peek_and_check_blackjack (g : BJGame) : PeekRes × BJGame :=
  if ¬ g.should_dealer_peek then ({ peeked := false, game_over := false }, g)
  else if g.dealer_peeked then ({ peeked := false, game_over := false }, g)
  else
    let g := { g with dealer_peeked := true }
    let bjcheck : Bool :=
      match g.dealer.hand[0]?, g.dealer.hand[1]? with
      | some hole, some up =>
        (hole.rank == Rank.ace && up.value == 10) ||
          (up.rank == Rank.ace && hole.value == 10)
      | _, _ => false
    if bjcheck then
      let (player, result) := peekSettleLoop g.player.hands.enum g.player g.result
      let player :=
        if g.insurance_taken then
          { player with chips := player.chips + g.insurance_amount * 3 }
        else player
      let outcome :=
        if g.insurance_taken then some (true, g.insurance_amount * 2)
        else g.insurance_outcome
      ({ peeked := true, game_over := true, dealer_blackjack := true },
       { g with
         dealer := g.dealer.reveal_hole_card
         state := GameState.GAME_OVER
         player := player
         result := result
         insurance_outcome := outcome })
    else
      ({ peeked := true, game_over := false, dealer_blackjack := false }, g)

/-- new_game: clear hands, reset round state, optionally keep the
auto-mode configuration, and reshuffle when fewer than half of the shoe
remains.  The fresh shuffle order is supplied by the shuffle parameter. -/
def BJGame.new_game (g : BJGame) (shuffle : List Card → List Card)
    (preserve_auto : Bool) : BJGame :=
  let g := { g with
    dealer := g.dealer.clear_hand
    player := g.player.clear_hands.create_new_hand
    state := GameState.BETTING
    result := none
    insurance_offer_active := false
    insurance_for_hand_index := none
    insurance_amount := 0
    insurance_taken := false
    even_money_offer_active := false
    insurance_outcome := none
    dealer_peeked := false
    pending_forced_dealer_cards := none }
  let g :=
    if ¬ preserve_auto then
      { g with
        auto_mode_active := false
        auto_hands_remaining := 0
        auto_default_bet := 0
        auto_insurance_mode := none
        auto_status := none }
    else if g.auto_mode_active ∧ 0 < g.auto_hands_remaining then
      { g with auto_status := some ("Auto mode running (" ++
          toString g.auto_hands_remaining ++ " hands remaining)") }
    else g
  let min_cards_threshold := (g.num_decks * 52) / 2
  if g.deck.cards.length < min_cards_threshold then
    { g with deck := { cards := shuffle (buildDeck g.num_decks),
                       num_decks := g.num_decks } }
  else g

/-- place_bet: phase, positivity, table-limit and funds checks, then the
single point where chips leave the account. -/
def BJGame.place_bet (g : BJGame) (amount : Int) : ARes × BJGame :=
  if g.state ≠ GameState.BETTING then (failRes "Not in betting phase", g)
  else if amount ≤ 0 then (failRes "Bet must be greater than 0", g)
  else if amount < g.min_bet then
    (failRes ("Minimum bet is $" ++ toString g.min_bet), g)
  else if g.max_bet < amount then
    (failRes ("Maximum bet is $" ++ toString g.max_bet), g)
  else if g.player.chips < amount then (failRes "Insufficient Funds", g)
  else
    let (ok, player) := g.player.place_bet amount 0
    if ok then
      (okRes ("Bet of $" ++ toString amount ++ " placed"),
       { g with player := player })
    else (failRes "Failed to place bet", { g with player := player })

/-- The body of deal_initial_cards after the betting-phase checks and the
forced-hand set-up: two cards to the player then two to the dealer (hole
card first), followed by the even-money / immediate blackjack /
insurance-offer / ten-value-peek branching. -/
def BJGame.dealRound (g : BJGame) (current_hand : Hand) : ARes × BJGame :=
  let (player_cards, deck1) := g.deck.deal_cards 2
        let player1 := g.player.updateHand g.player.current_hand_index
          (current_hand.add_cards player_cards)
        let (dealer1, deck2) :=
          match g.pending_forced_dealer_cards with
          | some (hole, up) => (g.dealer.add_cards [hole, up], deck1)
          | none =>
            let (dealer_cards, d2) := deck1.deal_cards 2
            (g.dealer.add_cards dealer_cards, d2)
        let g := { g with
          deck := deck2
          player := player1
          dealer := dealer1
          pending_forced_dealer_cards := none }
        let player_has_blackjack : Bool :=
          match g.player.get_current_hand with
          | some h => h.is_blackjack
          | none => false
        let dealer_shows_ace : Bool :=
          match g.dealer.hand[1]? with
          | some c => c.rank == Rank.ace
          | none => false
        if player_has_blackjack && dealer_shows_ace then
          ({ success := true, message := "Cards dealt - Even Money offered",
             even_money_offered := true },
           { g with
             even_money_offer_active := true
             state := GameState.PLAYER_TURN })
        else if player_has_blackjack then
          let g := { g with dealer := g.dealer.reveal_hole_card }
          if g.dealer.is_blackjack then
            (okRes "Cards dealt",
             { g with
               state := GameState.GAME_OVER
               result := some "push"
               player := g.player.push 0 })
          else
            (okRes "Cards dealt",
             { g with
               state := GameState.GAME_OVER
               result := some "blackjack"
               player := g.player.win 0 true })
        else
          let g := { g with state := GameState.PLAYER_TURN }
          if dealer_shows_ace then
            let bet :=
              match g.player.get_current_hand with
              | some h => h.bet
              | none => 0
            (okRes "Cards dealt",
             { g with
               insurance_offer_active := true
               insurance_for_hand_index := some g.player.current_hand_index
               insurance_amount := bet / 2 })
          else if g.should_dealer_peek then
            let (pr, g2) := g.dealer_peek_and_check_blackjack
            if pr.game_over then
              ({ success := true, message := "Cards dealt - dealer blackjack",
                 game_over := true, dealer_peeked := true }, g2)
            else (okRes "Cards dealt", g2)
          else (okRes "Cards dealt", g)

/-- deal_initial_cards: the betting-phase and placed-bet checks, the
forced-dealer-hand set-up, then the dealing body. -/
def BJGame.deal_initial_cards (g : BJGame) : ARes × BJGame :=
  if g.state ≠ GameState.BETTING then (failRes "Not in betting phase", g)
  else
    match g.player.get_current_hand with
    | none => (failRes "Must place a bet first", g)
    | some current_hand =>
      if current_hand.bet = 0 then (failRes "Must place a bet first", g)
      else
        let g := { g with state := GameState.DEALING }
        let g := g.dealSetupForce
        g.dealRound current_hand

/-- _move_to_next_hand: advance the hand pointer; false means every hand
is finished. -/
def BJGame.move_to_next_hand (g : BJGame) : Bool × BJGame :=
  let player := { g.player with
    current_hand_index := g.player.current_hand_index + 1 }
  if player.hands.length ≤ player.current_hand_index then
    (false, { g with player := player })
  else (true, { g with player := player })

/-- _finish_game: the player busted on every hand; reveal and end. -/
def BJGame.finish_game (g : BJGame) : BJGame :=
  { g with
    dealer := g.dealer.reveal_hole_card
    state := GameState.GAME_OVER
    result := some "loss" }

/-- The per-hand settlement loop of _determine_results.  The third
component is the result_set flag. -/
def determineLoop (dealer_value : Nat) (dealer_bust : Bool) :
    List (Nat × Hand) → Player → Option String → Bool →
    Player × Option String × Bool
  | [], p, r, rs => (p, r, rs)
  | (i, hand) :: rest, p, r, rs =>
    if hand.is_surrendered then
      determineLoop dealer_value dealer_bust rest p
        (if rs then r else some "loss") true
    else if hand.is_bust then
      determineLoop dealer_value dealer_bust rest (p.lose i)
        (if rs then r else some "loss") true
    else if dealer_bust then
      determineLoop dealer_value dealer_bust rest (p.win i false)
        (if rs then r else some "win") true
    else
      let player_value := hand.get_value
      if dealer_value < player_value then
        if hand.is_blackjack ∧ ¬ hand.is_split then
          determineLoop dealer_value dealer_bust rest (p.win i true)
            (some "blackjack") true
        else if r ≠ some "blackjack" then
          determineLoop dealer_value dealer_bust rest (p.win i false)
            (some "win") true
        else
          determineLoop dealer_value dealer_bust rest (p.win i false) r rs
      else if player_value < dealer_value then
        if r ≠ some "blackjack" then
          determineLoop dealer_value dealer_bust rest (p.lose i)
            (some "loss") true
        else
          determineLoop dealer_value dealer_bust rest (p.lose i) r rs
      else
        if r ≠ some "blackjack" ∧ r ≠ some "win" ∧ r ≠ some "loss" then
          determineLoop dealer_value dealer_bust rest (p.push i)
            (some "push") true
        else
          determineLoop dealer_value dealer_bust rest (p.push i) r rs

/-- _determine_results: settle every hand against the dealer, default the
label to loss when nothing set it, resolve a pending insurance bet, and
end the round. -/
def BJGame.determine_results (g : BJGame) : BJGame :=
  let dealer_value := g.dealer.get_value
  let dealer_bust := g.dealer.is_bust
  let (player, result, result_set) := determineLoop dealer_value dealer_bust
    g.player.hands.enum g.player g.result false
  let result := if ¬ result_set then some "loss" else result
  let g1 := { g with player := player, result := result }
  let g2 :=
    if g1.insurance_taken then
      if g1.dealer.is_blackjack then
        { g1 with
          player := { g1.player with
            chips := g1.player.chips + g1.insurance_amount * 3 }
          insurance_outcome := some (true, g1.insurance_amount * 2)
          insurance_taken := false
          insurance_amount := 0
          insurance_for_hand_index := none }
      else
        { g1 with
          insurance_outcome := some (false, g1.insurance_amount)
          insurance_taken := false
          insurance_amount := 0
          insurance_for_hand_index := none }
    else if g1.insurance_offer_active then
      { g1 with insurance_outcome := some (false, 0) }
    else g1
  { g2 with state := GameState.GAME_OVER }

/-- hit: draw one card to the active hand, with the five-card-Charlie
bonus win and the bust handling. -/
def BJGame.hit (g : BJGame) : ARes × BJGame :=
  if g.state ≠ GameState.PLAYER_TURN then (failRes "Not player turn", g)
  else if g.insurance_offer_active || g.even_money_offer_active then
    (failRes "Insurance decision required", g)
  else
    match g.player.get_current_hand with
    | none => (failRes "No active hand", g)
    | some current_hand =>
      if current_hand.is_from_split_aces then
        (failRes "Not allowed on split aces", g)
      else
        match g.deck.deal_card with
        | (none, deck) => (failRes "No more cards in deck", { g with deck := deck })
        | (some card, deck) =>
          let current_hand := current_hand.add_card card
          let g := { g with
            deck := deck
            player := g.player.updateHand g.player.current_hand_index
              current_hand }
          if current_hand.cards.length = 5 ∧ ¬ current_hand.is_bust then
            let g := { g with
              player := g.player.win g.player.current_hand_index false }
            let (moved, g) := g.move_to_next_hand
            if moved then
              ({ success := true,
                 message := "5 Card Charlie! You win! Next hand",
                 charlie := true }, g)
            else
              ({ success := true, message := "5 Card Charlie! You win!",
                 charlie := true, game_over := true },
               { g with
                 dealer := g.dealer.reveal_hole_card
                 state := GameState.GAME_OVER
                 result := some "win" })
          else if current_hand.is_bust then
            let (moved, g) := g.move_to_next_hand
            if moved then
              ({ success := true, message := "Bust! Next hand", bust := true }, g)
            else
              ({ success := true, message := "Bust! Game over", bust := true,
                 game_over := true }, g.finish_game)
          else (okRes "Card dealt", g)

/-- stand: advance to the next hand, or run the dealer and settle. -/
def BJGame.stand (g : BJGame) : ARes × BJGame :=
  if g.state ≠ GameState.PLAYER_TURN then (failRes "Not player turn", g)
  else if g.insurance_offer_active || g.even_money_offer_active then
    (failRes "Insurance decision required", g)
  else
    let (moved, g) := g.move_to_next_hand
    if moved then (okRes "Standing. Next hand", g)
    else
      let g := { g with state := GameState.DEALER_TURN }
      let (dealer, deck) := g.dealer.play_hand g.deck g.dealer_hits_soft_17
      let g := BJGame.determine_results { g with dealer := dealer, deck := deck }
      ({ success := true, message := "Standing. Dealer playing",
         game_over := true }, g)

/-- surrender: first action only; refund half the bet (floor), mark the
hand, then advance or settle. -/
def BJGame.surrender (g : BJGame) : ARes × BJGame :=
  if g.state ≠ GameState.PLAYER_TURN then (failRes "Not player turn", g)
  else if g.insurance_offer_active || g.even_money_offer_active then
    (failRes "Insurance decision required", g)
  else
    match g.player.get_current_hand with
    | none => (failRes "No active hand", g)
    | some current_hand =>
      if current_hand.cards.length ≠ 2 then
        (failRes "Surrender only available before taking any actions", g)
      else if current_hand.is_doubled_down then
        (failRes "Cannot surrender after doubling down", g)
      else if current_hand.is_from_split_aces then
        (failRes "Not allowed on split aces", g)
      else
        let surrender_refund := current_hand.bet / 2
        let player := g.player.updateHand g.player.current_hand_index
          { current_hand with is_surrendered := true }
        let g := { g with
          player := { player with chips := player.chips + surrender_refund } }
        let (moved, g) := g.move_to_next_hand
        if moved then
          (okRes ("Surrendered. Refunded $" ++ toString surrender_refund ++
            ". Next hand"), g)
        else
          let g := { g with state := GameState.DEALER_TURN }
          let (dealer, deck) := g.dealer.play_hand g.deck g.dealer_hits_soft_17
          let g := BJGame.determine_results
            { g with dealer := dealer, deck := deck }
          ({ success := true,
             message := "Surrendered. Refunded $" ++
               toString surrender_refund ++ ". Game over",
             game_over := true }, g)

/-- double_down: double the recorded bet, charge the incremental half,
draw exactly one card, then the same bust / advance / dealer logic.  The
bet is doubled and the chips charged before the shoe is consulted, so an
empty shoe rejects the action after those effects. -/
def BJGame.double_down (g : BJGame) : ARes × BJGame :=
  if g.state ≠ GameState.PLAYER_TURN then (failRes "Not player turn", g)
  else
    match g.player.get_current_hand with
    | none => (failRes "No active hand", g)
    | some current_hand =>
      if current_hand.is_from_split_aces then
        (failRes "Not allowed on split aces", g)
      else if ¬ current_hand.can_double_down then
        (failRes "Cannot double down", g)
      else if g.player.chips < current_hand.bet then
        (failRes "Insufficient Funds", g)
      else
        let current_hand := current_hand.double_down
        let player := g.player.updateHand g.player.current_hand_index
          current_hand
        let g := { g with
          player := { player with
            chips := player.chips - current_hand.bet / 2 } }
        match g.deck.deal_card with
        | (none, deck) =>
          (failRes "No more cards in deck", { g with deck := deck })
        | (some card, deck) =>
          let current_hand := current_hand.add_card card
          let g := { g with
            deck := deck
            player := g.player.updateHand g.player.current_hand_index
              current_hand }
          if current_hand.is_bust then
            let (moved, g) := g.move_to_next_hand
            if moved then
              ({ success := true, message := "Doubled down - bust! Next hand",
                 bust := true }, g)
            else
              let g := { g with state := GameState.DEALER_TURN }
              let (dealer, deck) := g.dealer.play_hand g.deck
                g.dealer_hits_soft_17
              let g := BJGame.determine_results
                { g with dealer := dealer, deck := deck }
              ({ success := true, message := "Doubled down - bust! Game over",
                 bust := true, game_over := true }, g)
          else
            let (moved, g) := g.move_to_next_hand
            if moved then (okRes "Doubled down", g)
            else
              let g := { g with state := GameState.DEALER_TURN }
              let (dealer, deck) := g.dealer.play_hand g.deck
                g.dealer_hits_soft_17
              let g := BJGame.determine_results
                { g with dealer := dealer, deck := deck }
              ({ success := true, message := "Doubled down. Dealer playing",
                 game_over := true }, g)

/-- The deal-one-card-to-each-single-card-hand pass that follows a split. -/
def dealToOneCardHands : List Hand → Deck → List Hand × Deck
  | [], d => ([], d)
  | h :: rest, d =>
    if h.cards.length = 1 then
      let (c, d1) := d.deal_card
      let h' :=
        match c with
        | some c => h.add_card c
        | none => h
      let (rest', d2) := dealToOneCardHands rest d1
      (h' :: rest', d2)
    else
      let (rest', d2) := dealToOneCardHands rest d
      (h :: rest', d2)

/-- split: delegate to Player.split_hand after the phase, flag, pair,
hand-cap and funds checks, then deal one card to each single-card hand. -/
def BJGame.split (g : BJGame) : ARes × BJGame :=
  if g.state ≠ GameState.PLAYER_TURN then (failRes "Not player turn", g)
  else
    match g.player.get_current_hand with
    | none => (failRes "No active hand", g)
    | some current_hand =>
      if current_hand.is_from_split_aces then
        (failRes "Not allowed on split aces", g)
      else if ¬ current_hand.can_split then
        (failRes "Cannot split this hand", g)
      else if 4 ≤ g.player.hands.length then
        (failRes "Maximum splits reached", g)
      else if g.player.chips < current_hand.bet then
        (failRes "Insufficient Funds", g)
      else
        let (ok, player) := g.player.split_hand g.player.current_hand_index
        if ¬ ok then (failRes "Failed to split hand", { g with player := player })
        else
          let (hands, deck) := dealToOneCardHands player.hands g.deck
          (okRes "Hand split",
           { g with
             player := { player with hands := hands }
             deck := deck
             state := GameState.PLAYER_TURN })

/-- insurance_decision: the even-money and insurance resolution paths,
including the post-decision dealer peek. -/
def BJGame.insurance_decision (g : BJGame) (decision : String) :
    ARes × BJGame :=
  if g.state ≠ GameState.PLAYER_TURN then (failRes "Not player turn", g)
  else if ¬ (g.insurance_offer_active || g.even_money_offer_active) then
    (failRes "No insurance offer active", g)
  else
    match g.player.get_current_hand with
    | none => (failRes "No active hand", g)
    | some current_hand =>
      if g.even_money_offer_active then
        if decision == "even_money" then
          let payout := current_hand.bet * 2
          ({ success := true, message := "Even money paid", game_over := true },
           { g with
             player := { g.player with chips := g.player.chips + payout }
             result := some "even_money"
             even_money_offer_active := false
             insurance_offer_active := false
             insurance_taken := false
             state := GameState.GAME_OVER })
        else if decision == "decline" then
          let g := { g with
            even_money_offer_active := false
            dealer := g.dealer.reveal_hole_card }
          if g.dealer.is_blackjack then
            ({ success := true,
               message := "Even money declined - Push (both blackjack)",
               game_over := true },
             { g with
               state := GameState.GAME_OVER
               result := some "push"
               player := g.player.push 0 })
          else
            ({ success := true,
               message := "Even money declined - Blackjack wins 3:2",
               game_over := true },
             { g with
               state := GameState.GAME_OVER
               result := some "blackjack"
               player := g.player.win 0 true })
        else (failRes "Invalid decision", g)
      else
        if decision == "buy" then
          if g.player.chips < g.insurance_amount then
            (failRes "Insufficient Funds", g)
          else
            let g := { g with
              player := { g.player with
                chips := g.player.chips - g.insurance_amount }
              insurance_taken := true
              insurance_offer_active := false }
            let (pr, g2) := g.dealer_peek_and_check_blackjack
            if pr.game_over then
              ({ success := true,
                 message := "Insurance purchased - dealer blackjack",
                 game_over := true, dealer_peeked := true }, g2)
            else
              ({ success := true, message := "Insurance purchased",
                 dealer_peeked := true }, g2)
        else if decision == "decline" then
          let g := { g with
            insurance_offer_active := false
            insurance_taken := false }
          let (pr, g2) := g.dealer_peek_and_check_blackjack
          if pr.game_over then
            ({ success := true,
               message := "Insurance declined - dealer blackjack",
               game_over := true, dealer_peeked := true }, g2)
          else
            ({ success := true, message := "Insurance declined",
               dealer_peeked := true }, g2)
        else (failRes "Invalid decision", g)

/-! ### Claim C2: rejected actions and partial effects -/

inductive PlayerAction where
  | hit
  | stand
  | double_down
  | split
  | surrender
  | insurance_decision (decision : String)
deriving DecidableEq, Repr

def applyPlayerAction : PlayerAction → BJGame → ARes × BJGame
  | .hit, g => g.hit
  | .stand, g => g.stand
  | .double_down, g => g.double_down
  | .split, g => g.split
  | .surrender, g => g.surrender
  | .insurance_decision d, g => g.insurance_decision d

theorem deal_card_none (d x : Deck) (h : d.deal_card = (none, x)) : x = d := by
  rw [Deck.deal_card] at h
  cases hl : d.cards.getLast? with
  | none =>
    rw [hl] at h
    cases h
    rfl
  | some c =>
    rw [hl] at h
    cases h

theorem split_hand_fail (p : Player) (i : Nat)
    (h : (p.split_hand i).1 = false) : (p.split_hand i).2 = p := by
  revert h
  unfold Player.split_hand
  dsimp only
  repeat' split
  all_goals intro h
  all_goals try rfl
  all_goals simp [okRes, failRes] at h

theorem hit_fail_unchanged (g : BJGame)
    (h : (g.hit).1.success = false) : (g.hit).2 = g := by
  revert h
  unfold BJGame.hit
  dsimp only
  repeat' split
  all_goals intro h
  all_goals try rfl
  all_goals try (simp [okRes, failRes] at h)
  all_goals (rename_i heq
             have hd := deal_card_none _ _ heq
             subst hd
             rfl)

theorem stand_fail_unchanged (g : BJGame)
    (h : (g.stand).1.success = false) : (g.stand).2 = g := by
  revert h
  unfold BJGame.stand
  dsimp only
  repeat' split
  all_goals intro h
  all_goals try rfl
  all_goals simp [okRes, failRes] at h

theorem surrender_fail_unchanged (g : BJGame)
    (h : (g.surrender).1.success = false) : (g.surrender).2 = g := by
  revert h
  unfold BJGame.surrender
  dsimp only
  repeat' split
  all_goals intro h
  all_goals try rfl
  all_goals simp [okRes, failRes] at h

theorem split_fail_unchanged (g : BJGame)
    (h : (g.split).1.success = false) : (g.split).2 = g := by
  revert h
  unfold BJGame.split
  dsimp only
  repeat' split
  all_goals intro h
  all_goals try rfl
  all_goals try (simp [okRes, failRes] at h)
  all_goals (rename_i hok
             rw [split_hand_fail _ _ (Bool.eq_false_iff.mpr hok)])

theorem insurance_decision_fail_unchanged (g : BJGame) (d : String)
    (h : (g.insurance_decision d).1.success = false) :
    (g.insurance_decision d).2 = g := by
  revert h
  unfold BJGame.insurance_decision
  dsimp only
  repeat' split
  all_goals intro h
  all_goals try rfl
  all_goals simp [okRes, failRes] at h

theorem double_down_fail (g : BJGame)
    (h : (g.double_down).1.success = false) :
    (g.double_down).2 = g ∨
      (g.double_down).1.message = "No more cards in deck" := by
  revert h
  unfold BJGame.double_down
  dsimp only
  repeat' split
  all_goals intro h
  all_goals try (exact Or.inl rfl)
  all_goals try (exact Or.inr rfl)
  all_goals simp [okRes, failRes] at h

/-- C2 counterexample: in a player turn with an empty shoe, 100 chips and
a doubled-eligible hand with bet 10, double_down returns success = false
yet has already doubled the bet and charged 10 chips. -/
theorem rejected_action_counterexample :
    ((BJGame.double_down
      { num_decks := 6, deck := { cards := [], num_decks := 6 },
        player :=
          { chips := 100,
            hands := [{ cards := [⟨Suit.hearts, Rank.five⟩, ⟨Suit.hearts, Rank.six⟩],
                        bet := 10, is_doubled_down := false, is_split := false,
                        is_surrendered := false, is_from_split_aces := false }],
            current_hand_index := 0, total_wins := 0, total_losses := 0,
            total_blackjacks := 0 },
        dealer := { hand := [⟨Suit.spades, Rank.nine⟩, ⟨Suit.clubs, Rank.nine⟩],
                    hole_card_hidden := true },
        state := GameState.PLAYER_TURN, result := none, min_bet := 5,
        max_bet := 500, dealer_hits_soft_17 := false,
        insurance_offer_active := false, insurance_for_hand_index := none,
        insurance_amount := 0, insurance_taken := false,
        even_money_offer_active := false, insurance_outcome := none,
        auto_mode_active := false, auto_hands_remaining := 0,
        auto_default_bet := 0, auto_insurance_mode := none,
        auto_strategy := "basic", auto_betting_strategy := "fixed",
        auto_bet_percentage := none, auto_double_down_pref := "recommended",
        auto_split_pref := "recommended", auto_surrender_pref := "recommended",
        auto_progressive_bet := 0, auto_last_result := none,
        auto_status := none, dealer_peeked := false,
        force_dealer_hand := none,
        pending_forced_dealer_cards := none }).1.success = false) ∧
    ((BJGame.double_down
      { num_decks := 6, deck := { cards := [], num_decks := 6 },
        player :=
          { chips := 100,
            hands := [{ cards := [⟨Suit.hearts, Rank.five⟩, ⟨Suit.hearts, Rank.six⟩],
                        bet := 10, is_doubled_down := false, is_split := false,
                        is_surrendered := false, is_from_split_aces := false }],
            current_hand_index := 0, total_wins := 0, total_losses := 0,
            total_blackjacks := 0 },
        dealer := { hand := [⟨Suit.spades, Rank.nine⟩, ⟨Suit.clubs, Rank.nine⟩],
                    hole_card_hidden := true },
        state := GameState.PLAYER_TURN, result := none, min_bet := 5,
        max_bet := 500, dealer_hits_soft_17 := false,
        insurance_offer_active := false, insurance_for_hand_index := none,
        insurance_amount := 0, insurance_taken := false,
        even_money_offer_active := false, insurance_outcome := none,
        auto_mode_active := false, auto_hands_remaining := 0,
        auto_default_bet := 0, auto_insurance_mode := none,
        auto_strategy := "basic", auto_betting_strategy := "fixed",
        auto_bet_percentage := none, auto_double_down_pref := "recommended",
        auto_split_pref := "recommended", auto_surrender_pref := "recommended",
        auto_progressive_bet := 0, auto_last_result := none,
        auto_status := none, dealer_peeked := false,
        force_dealer_hand := none,
        pending_forced_dealer_cards := none }).2.player.chips = 90) := by
  decide

/-- C2 amended: a rejected hit, stand, split, surrender or
insurance_decision leaves the game state untouched; double_down shares
this except when it is rejected because the shoe ran empty, which happens
after the bet has been doubled and the incremental chips charged. -/
theorem rejected_actions_no_partial_effects (a : PlayerAction) (g : BJGame)
    (h : (applyPlayerAction a g).1.success = false) :
    (applyPlayerAction a g).2 = g ∨
      (a = PlayerAction.double_down ∧
       (applyPlayerAction a g).1.message = "No more cards in deck") := by
  cases a with
  | hit => exact Or.inl (hit_fail_unchanged g h)
  | stand => exact Or.inl (stand_fail_unchanged g h)
  | double_down =>
    rcases double_down_fail g h with h1 | h1
    · exact Or.inl h1
    · exact Or.inr ⟨rfl, h1⟩
  | split => exact Or.inl (split_fail_unchanged g h)
  | surrender => exact Or.inl (surrender_fail_unchanged g h)
  | insurance_decision d =>
    exact Or.inl (insurance_decision_fail_unchanged g d h)

/-- Witness for C2 amended: a hit attempted during the betting phase is
rejected and leaves the concrete game unchanged. -/
theorem rejected_actions_no_partial_effects_witness :
    (applyPlayerAction PlayerAction.hit
      { num_decks := 6, deck := { cards := [], num_decks := 6 },
        player := { chips := 100, hands := [Hand.empty],
                    current_hand_index := 0, total_wins := 0,
                    total_losses := 0, total_blackjacks := 0 },
        dealer := { hand := [], hole_card_hidden := true },
        state := GameState.BETTING, result := none, min_bet := 5,
        max_bet := 500, dealer_hits_soft_17 := false,
        insurance_offer_active := false, insurance_for_hand_index := none,
        insurance_amount := 0, insurance_taken := false,
        even_money_offer_active := false, insurance_outcome := none,
        auto_mode_active := false, auto_hands_remaining := 0,
        auto_default_bet := 0, auto_insurance_mode := none,
        auto_strategy := "basic", auto_betting_strategy := "fixed",
        auto_bet_percentage := none, auto_double_down_pref := "recommended",
        auto_split_pref := "recommended", auto_surrender_pref := "recommended",
        auto_progressive_bet := 0, auto_last_result := none,
        auto_status := none, dealer_peeked := false,
        force_dealer_hand := none,
        pending_forced_dealer_cards := none }).2 =
      { num_decks := 6, deck := { cards := [], num_decks := 6 },
        player := { chips := 100, hands := [Hand.empty],
                    current_hand_index := 0, total_wins := 0,
                    total_losses := 0, total_blackjacks := 0 },
        dealer := { hand := [], hole_card_hidden := true },
        state := GameState.BETTING, result := none, min_bet := 5,
        max_bet := 500, dealer_hits_soft_17 := false,
        insurance_offer_active := false, insurance_for_hand_index := none,
        insurance_amount := 0, insurance_taken := false,
        even_money_offer_active := false, insurance_outcome := none,
        auto_mode_active := false, auto_hands_remaining := 0,
        auto_default_bet := 0, auto_insurance_mode := none,
        auto_strategy := "basic", auto_betting_strategy := "fixed",
        auto_bet_percentage := none, auto_double_down_pref := "recommended",
        auto_split_pref := "recommended", auto_surrender_pref := "recommended",
        auto_progressive_bet := 0, auto_last_result := none,
        auto_status := none, dealer_peeked := false,
        force_dealer_hand := none,
        pending_forced_dealer_cards := none } := by
  rcases rejected_actions_no_partial_effects PlayerAction.hit
    { num_decks := 6, deck := { cards := [], num_decks := 6 },
        player := { chips := 100, hands := [Hand.empty],
                    current_hand_index := 0, total_wins := 0,
                    total_losses := 0, total_blackjacks := 0 },
        dealer := { hand := [], hole_card_hidden := true },
        state := GameState.BETTING, result := none, min_bet := 5,
        max_bet := 500, dealer_hits_soft_17 := false,
        insurance_offer_active := false, insurance_for_hand_index := none,
        insurance_amount := 0, insurance_taken := false,
        even_money_offer_active := false, insurance_outcome := none,
        auto_mode_active := false, auto_hands_remaining := 0,
        auto_default_bet := 0, auto_insurance_mode := none,
        auto_strategy := "basic", auto_betting_strategy := "fixed",
        auto_bet_percentage := none, auto_double_down_pref := "recommended",
        auto_split_pref := "recommended", auto_surrender_pref := "recommended",
        auto_progressive_bet := 0, auto_last_result := none,
        auto_status := none, dealer_peeked := false,
        force_dealer_hand := none,
        pending_forced_dealer_cards := none } (by decide)
    with h | ⟨hcontra, _⟩
  · exact h
  · exact absurd hcontra (by decide)

/-! ### Claim C3: precedence of the overall round result label -/

/-- The per-hand settlement outcome, read off the branch structure of
_determine_results. -/
inductive HOut where
  | surrenderLoss
  | bustLoss
  | dealerBustWin
  | cmpWin
  | cmpLoss
  | pushOut
  | blackjackWin
deriving DecidableEq, Repr

def handOutcome (dealer_value : Nat) (dealer_bust : Bool) (hand : Hand) :
    HOut :=
  if hand.is_surrendered then .surrenderLoss
  else if hand.is_bust then .bustLoss
  else if dealer_bust then .dealerBustWin
  else if dealer_value < hand.get_value then
    (if hand.is_blackjack ∧ ¬ hand.is_split then .blackjackWin else .cmpWin)
  else if hand.get_value < dealer_value then .cmpLoss
  else .pushOut

/-- How one settlement outcome updates the (label, label-set) pair:
blackjack overwrites unconditionally, a comparison win or loss overwrites
any non-blackjack label, surrender / bust / dealer-bust outcomes and push
only fill an unset label (push also refuses to follow a win or loss). -/
def labelStep : Option String × Bool → HOut → Option String × Bool
  | (r, rs), .surrenderLoss => ((if rs then r else some "loss"), true)
  | (r, rs), .bustLoss => ((if rs then r else some "loss"), true)
  | (r, rs), .dealerBustWin => ((if rs then r else some "win"), true)
  | (_, _), .blackjackWin => (some "blackjack", true)
  | (r, rs), .cmpWin =>
    if r ≠ some "blackjack" then (some "win", true) else (r, rs)
  | (r, rs), .cmpLoss =>
    if r ≠ some "blackjack" then (some "loss", true) else (r, rs)
  | (r, rs), .pushOut =>
    if r ≠ some "blackjack" ∧ r ≠ some "win" ∧ r ≠ some "loss" then
      (some "push", true)
    else (r, rs)

/-- The label _determine_results leaves, as a fold of labelStep over the
per-hand outcomes, defaulting to loss when nothing set it. -/
def settleLabel (init : Option String) (outs : List HOut) : Option String :=
  let p := outs.foldl labelStep (init, false)
  if ¬ p.2 then some "loss" else p.1

/-- The label demanded by the claim as written: blackjack on any hand,
otherwise the first non-push outcome decides win or loss, otherwise push. -/
def claimLabel (dealer_value : Nat) (dealer_bust : Bool)
    (hands : List Hand) : String :=
  let outs := hands.map (handOutcome dealer_value dealer_bust)
  if outs.contains .blackjackWin then "blackjack"
  else
    match outs.find? (fun o => o != .pushOut) with
    | some .dealerBustWin => "win"
    | some .cmpWin => "win"
    | some _ => "loss"
    | none => "push"

theorem determineLoop_label (dv : Nat) (db : Bool) (L : List (Nat × Hand))
    (p : Player) (r : Option String) (rs : Bool) :
    (determineLoop dv db L p r rs).2 =
      (L.map (fun x => handOutcome dv db x.2)).foldl labelStep (r, rs) := by
  induction L generalizing p r rs with
  | nil => rw [determineLoop, List.map_nil, List.foldl_nil]
  | cons x rest ih =>
    obtain ⟨i, hand⟩ := x
    rw [determineLoop, List.map_cons, List.foldl_cons]
    by_cases h1 : hand.is_surrendered = true
    · have hout : handOutcome dv db hand = HOut.surrenderLoss := by
        simp [handOutcome, h1]
      rw [if_pos h1, hout, labelStep]
      exact ih _ _ _
    · rw [if_neg h1]
      by_cases h2 : hand.is_bust = true
      · have hout : handOutcome dv db hand = HOut.bustLoss := by
          simp [handOutcome, h1, h2]
        rw [if_pos h2, hout, labelStep]
        exact ih _ _ _
      · rw [if_neg h2]
        by_cases h3 : db = true
        · have hout : handOutcome dv db hand = HOut.dealerBustWin := by
            simp [handOutcome, h1, h2, h3]
          rw [if_pos h3, hout, labelStep]
          exact ih _ _ _
        · rw [if_neg h3]
          by_cases h4 : dv < hand.get_value
          · rw [if_pos h4]
            by_cases h5 : hand.is_blackjack = true ∧ ¬ hand.is_split = true
            · have hout : handOutcome dv db hand = HOut.blackjackWin := by
                simp only [handOutcome, h1, h2, h3, Bool.false_eq_true,
                  if_false, if_pos h4, if_pos h5]
              rw [if_pos h5, hout, labelStep]
              exact ih _ _ _
            · have hout : handOutcome dv db hand = HOut.cmpWin := by
                simp only [handOutcome, h1, h2, h3, Bool.false_eq_true,
                  if_false, if_pos h4, if_neg h5]
              rw [if_neg h5, hout, labelStep]
              by_cases h6 : r ≠ some "blackjack"
              · rw [if_pos h6, if_pos h6]
                exact ih _ _ _
              · rw [if_neg h6, if_neg h6]
                exact ih _ _ _
          · rw [if_neg h4]
            by_cases h7 : hand.get_value < dv
            · have hout : handOutcome dv db hand = HOut.cmpLoss := by
                simp only [handOutcome, h1, h2, h3, Bool.false_eq_true,
                  if_false, if_neg h4, if_pos h7]
              rw [if_pos h7, hout, labelStep]
              by_cases h6 : r ≠ some "blackjack"
              · rw [if_pos h6, if_pos h6]
                exact ih _ _ _
              · rw [if_neg h6, if_neg h6]
                exact ih _ _ _
            · have hout : handOutcome dv db hand = HOut.pushOut := by
                simp only [handOutcome, h1, h2, h3, Bool.false_eq_true,
                  if_false, if_neg h4, if_neg h7]
              rw [if_neg h7, hout, labelStep]
              by_cases h8 : r ≠ some "blackjack" ∧ r ≠ some "win" ∧
                r ≠ some "loss"
              · rw [if_pos h8, if_pos h8]
                exact ih _ _ _
              · rw [if_neg h8, if_neg h8]
                exact ih _ _ _

/-- C3 counterexample: dealer stands on 20; the first hand busts (the
first non-push outcome, a loss), but the second hand wins its comparison
21 against 20, and the code leaves the round label "win" where the claim
requires the first non-push outcome "loss". -/
theorem determine_results_label_counterexample :
    ((BJGame.determine_results
      { num_decks := 6, deck := { cards := [], num_decks := 6 },
        player :=
          { chips := 0,
            hands :=
              [{ cards := [⟨Suit.hearts, Rank.king⟩, ⟨Suit.hearts, Rank.queen⟩,
                           ⟨Suit.hearts, Rank.five⟩],
                 bet := 10, is_doubled_down := false, is_split := false,
                 is_surrendered := false, is_from_split_aces := false },
               { cards := [⟨Suit.hearts, Rank.seven⟩, ⟨Suit.diamonds, Rank.seven⟩,
                           ⟨Suit.clubs, Rank.seven⟩],
                 bet := 10, is_doubled_down := false, is_split := false,
                 is_surrendered := false, is_from_split_aces := false }],
            current_hand_index := 2, total_wins := 0, total_losses := 0,
            total_blackjacks := 0 },
        dealer := { hand := [⟨Suit.spades, Rank.king⟩, ⟨Suit.spades, Rank.queen⟩],
                    hole_card_hidden := false },
        state := GameState.DEALER_TURN, result := none, min_bet := 5,
        max_bet := 500, dealer_hits_soft_17 := false,
        insurance_offer_active := false, insurance_for_hand_index := none,
        insurance_amount := 0, insurance_taken := false,
        even_money_offer_active := false, insurance_outcome := none,
        auto_mode_active := false, auto_hands_remaining := 0,
        auto_default_bet := 0, auto_insurance_mode := none,
        auto_strategy := "basic", auto_betting_strategy := "fixed",
        auto_bet_percentage := none, auto_double_down_pref := "recommended",
        auto_split_pref := "recommended", auto_surrender_pref := "recommended",
        auto_progressive_bet := 0, auto_last_result := none,
        auto_status := none, dealer_peeked := false,
        force_dealer_hand := none,
        pending_forced_dealer_cards := none }).result = some "win") ∧
    claimLabel 20 false
      [{ cards := [⟨Suit.hearts, Rank.king⟩, ⟨Suit.hearts, Rank.queen⟩,
                   ⟨Suit.hearts, Rank.five⟩],
         bet := 10, is_doubled_down := false, is_split := false,
         is_surrendered := false, is_from_split_aces := false },
       { cards := [⟨Suit.hearts, Rank.seven⟩, ⟨Suit.diamonds, Rank.seven⟩,
                   ⟨Suit.clubs, Rank.seven⟩],
         bet := 10, is_doubled_down := false, is_split := false,
         is_surrendered := false, is_from_split_aces := false }] = "loss" := by
  decide

/-- C3 amended: the round label left by _determine_results is the fold of
labelStep over the per-hand outcomes in order, starting from the
pre-settlement label: a blackjack win fixes "blackjack" permanently; a
value-comparison win or loss overwrites any non-blackjack label (so the
last comparison outcome prevails, not the first); surrendered, busted and
dealer-bust outcomes only fill a still-unset label; push fills only an
unset label; if no outcome set a label the result defaults to "loss". -/
theorem determine_results_label (g : BJGame) :
    (g.determine_results).result =
      settleLabel g.result
        (g.player.hands.map (handOutcome g.dealer.get_value g.dealer.is_bust)) := by
  rw [BJGame.determine_results]
  dsimp only
  have hloop := determineLoop_label g.dealer.get_value g.dealer.is_bust
    g.player.hands.enum g.player g.result false
  have henum : g.player.hands.enum.map
      (fun x => handOutcome g.dealer.get_value g.dealer.is_bust x.2) =
      g.player.hands.map (handOutcome g.dealer.get_value g.dealer.is_bust) := by
    rw [show (fun x : Nat × Hand =>
        handOutcome g.dealer.get_value g.dealer.is_bust x.2) =
        (handOutcome g.dealer.get_value g.dealer.is_bust) ∘ Prod.snd from rfl,
      ← List.map_map, List.enum_map_snd]
  rw [settleLabel, ← henum, ← hloop]
  by_cases hins : g.insurance_taken = true
  · by_cases hbj : g.dealer.is_blackjack = true <;>
      simp [hins, hbj]
  · by_cases hoff : g.insurance_offer_active = true <;>
      simp [hins, hoff]

/-! ### Claim C6: the insurance payout scenario -/

/-- A fresh round holding 1000 chips where the shoe will deal the two
given cards to the player, then a King hole card and an Ace upcard to the
dealer (deal_card pops from the back of the list). -/
def insuranceScenarioStart (p1 p2 : Card) : BJGame :=
  { num_decks := 6,
    deck := { cards := [⟨Suit.spades, Rank.ace⟩, ⟨Suit.diamonds, Rank.king⟩,
                        p2, p1], num_decks := 6 },
    player := { chips := 1000, hands := [Hand.empty], current_hand_index := 0,
                total_wins := 0, total_losses := 0, total_blackjacks := 0 },
    dealer := { hand := [], hole_card_hidden := true },
    state := GameState.BETTING, result := none, min_bet := 5, max_bet := 500,
    dealer_hits_soft_17 := false, insurance_offer_active := false,
    insurance_for_hand_index := none, insurance_amount := 0,
    insurance_taken := false, even_money_offer_active := false,
    insurance_outcome := none, auto_mode_active := false,
    auto_hands_remaining := 0, auto_default_bet := 0,
    auto_insurance_mode := none, auto_strategy := "basic",
    auto_betting_strategy := "fixed", auto_bet_percentage := none,
    auto_double_down_pref := "recommended", auto_split_pref := "recommended",
    auto_surrender_pref := "recommended", auto_progressive_bet := 0,
    auto_last_result := none, auto_status := none, dealer_peeked := false,
    force_dealer_hand := none, pending_forced_dealer_cards := none }

/-- The scenario state after the bet of 100 is placed. -/
def insuranceAfterBet (p1 p2 : Card) : BJGame :=
  { num_decks := 6,
    deck := { cards := [⟨Suit.spades, Rank.ace⟩, ⟨Suit.diamonds, Rank.king⟩,
                        p2, p1], num_decks := 6 },
    player := { chips := 900,
                hands := [{ cards := [], bet := 100, is_doubled_down := false,
                            is_split := false, is_surrendered := false,
                            is_from_split_aces := false }],
                current_hand_index := 0,
                total_wins := 0, total_losses := 0, total_blackjacks := 0 },
    dealer := { hand := [], hole_card_hidden := true },
    state := GameState.BETTING, result := none, min_bet := 5, max_bet := 500,
    dealer_hits_soft_17 := false, insurance_offer_active := false,
    insurance_for_hand_index := none, insurance_amount := 0,
    insurance_taken := false, even_money_offer_active := false,
    insurance_outcome := none, auto_mode_active := false,
    auto_hands_remaining := 0, auto_default_bet := 0,
    auto_insurance_mode := none, auto_strategy := "basic",
    auto_betting_strategy := "fixed", auto_bet_percentage := none,
    auto_double_down_pref := "recommended", auto_split_pref := "recommended",
    auto_surrender_pref := "recommended", auto_progressive_bet := 0,
    auto_last_result := none, auto_status := none, dealer_peeked := false,
    force_dealer_hand := none, pending_forced_dealer_cards := none }

/-- The scenario state after the initial deal: the player holds the two
given cards, the dealer a hidden King and an Ace upcard, and insurance
for 50 is on offer. -/
def insuranceAfterDeal (p1 p2 : Card) : BJGame :=
  { num_decks := 6,
    deck := { cards := [], num_decks := 6 },
    player := { chips := 900,
                hands := [{ cards := [p1, p2], bet := 100,
                            is_doubled_down := false, is_split := false,
                            is_surrendered := false,
                            is_from_split_aces := false }],
                current_hand_index := 0,
                total_wins := 0, total_losses := 0, total_blackjacks := 0 },
    dealer := { hand := [⟨Suit.diamonds, Rank.king⟩, ⟨Suit.spades, Rank.ace⟩],
                hole_card_hidden := true },
    state := GameState.PLAYER_TURN, result := none, min_bet := 5,
    max_bet := 500,
    dealer_hits_soft_17 := false, insurance_offer_active := true,
    insurance_for_hand_index := some 0, insurance_amount := 50,
    insurance_taken := false, even_money_offer_active := false,
    insurance_outcome := none, auto_mode_active := false,
    auto_hands_remaining := 0, auto_default_bet := 0,
    auto_insurance_mode := none, auto_strategy := "basic",
    auto_betting_strategy := "fixed", auto_bet_percentage := none,
    auto_double_down_pref := "recommended", auto_split_pref := "recommended",
    auto_surrender_pref := "recommended", auto_progressive_bet := 0,
    auto_last_result := none, auto_status := none, dealer_peeked := false,
    force_dealer_hand := none, pending_forced_dealer_cards := none }

/-- C6: bet 100 from 1000 chips, dealer shows an Ace, insurance bought for
50 (chips 850), the hole card completes a blackjack, and the player hand
is no blackjack (hence neither push nor win): the round ends as a loss
with the chips back at exactly 1000, insurance paid 2:1. -/
theorem insurance_break_even (p1 p2 : Card)
    (hnb : is_blackjack [p1, p2] = false) :
    ((((insuranceScenarioStart p1 p2).place_bet 100).2.deal_initial_cards.2.insurance_decision
        "buy").2.player.chips = 1000) ∧
    ((((insuranceScenarioStart p1 p2).place_bet 100).2.deal_initial_cards.2.insurance_decision
        "buy").2.result = some "loss") ∧
    ((((insuranceScenarioStart p1 p2).place_bet 100).2.deal_initial_cards.2.insurance_decision
        "buy").2.state = GameState.GAME_OVER) ∧
    ((((insuranceScenarioStart p1 p2).place_bet 100).2.deal_initial_cards.2.insurance_decision
        "buy").2.insurance_outcome = some (true, 100)) := by
  have hpb : Hand.is_blackjack
      { cards := [p1, p2], bet := 100, is_doubled_down := false,
        is_split := false, is_surrendered := false,
        is_from_split_aces := false } = false := by
    simpa [Hand.is_blackjack] using hnb
  have hb : ((insuranceScenarioStart p1 p2).place_bet 100).2 =
      insuranceAfterBet p1 p2 := by
    rfl
  have hd : (insuranceAfterBet p1 p2).deal_initial_cards.2 =
      insuranceAfterDeal p1 p2 := by
    rw [BJGame.deal_initial_cards]
    simp only [insuranceAfterBet, insuranceAfterDeal, Player.get_current_hand,
      BJGame.dealRound, BJGame.dealSetupForce, BJGame.force_dealer_hand_step,
      Player.updateHand, Hand.add_cards, Deck.deal_cards, Deck.deal_card,
      Dealer.add_cards, hpb]
    norm_num [hpb, List.getLast?, List.getLastD, List.dropLast,
      GameState.BETTING, GameState.DEALING, GameState.PLAYER_TURN]
  have hi : ((insuranceAfterDeal p1 p2).insurance_decision "buy").2.player.chips = 1000 ∧
      ((insuranceAfterDeal p1 p2).insurance_decision "buy").2.result = some "loss" ∧
      ((insuranceAfterDeal p1 p2).insurance_decision "buy").2.state = GameState.GAME_OVER ∧
      ((insuranceAfterDeal p1 p2).insurance_decision "buy").2.insurance_outcome =
        some (true, 100) := by
    rw [BJGame.insurance_decision]
    simp only [insuranceAfterDeal, Player.get_current_hand,
      BJGame.dealer_peek_and_check_blackjack, BJGame.should_dealer_peek,
      Card.is_ten_value, Card.value, Rank.baseValue, peekSettleLoop,
      List.enum, List.enumFrom, Hand.is_blackjack, hnb, Player.lose,
      Player.push, Dealer.reveal_hole_card]
    norm_num [GameState.PLAYER_TURN, GameState.GAME_OVER]
  rw [hb, hd]
  exact hi


/-- Witness for C6 at the concrete non-blackjack player hand Ten + Seven. -/
theorem insurance_break_even_witness :
    ((((insuranceScenarioStart ⟨Suit.hearts, Rank.ten⟩ ⟨Suit.hearts, Rank.seven⟩).place_bet
        100).2.deal_initial_cards.2.insurance_decision "buy").2.player.chips = 1000) :=
  (insurance_break_even ⟨Suit.hearts, Rank.ten⟩ ⟨Suit.hearts, Rank.seven⟩
    (by decide)).1

/-! ## Auto-play driver (game_logic.py, auto mode section)

The unbounded while loops of run_auto_cycle are modelled with explicit
fuel; every claim about the driver is stated for an arbitrary fuel. -/

/-- stop_auto_mode: reset the whole auto configuration and record the
terminal status (log-file handling is out of scope). -/
def BJGame.stop_auto_mode (g : BJGame) (status : Option String) : BJGame :=
  { g with
    auto_mode_active := false
    auto_hands_remaining := 0
    auto_default_bet := 0
    auto_insurance_mode := none
    auto_strategy := "basic"
    auto_betting_strategy := "fixed"
    auto_bet_percentage := none
    auto_double_down_pref := "recommended"
    auto_split_pref := "recommended"
    auto_surrender_pref := "recommended"
    auto_progressive_bet := 0
    auto_last_result := none
    auto_status := status }

def BJGame.is_auto_mode_active (g : BJGame) : Bool :=
  g.auto_mode_active && decide (0 < g.auto_hands_remaining)

/-- _get_auto_play_decision: hit or stand from the selected strategy and
the dealer card at index 0 (the source reads hand[0], the hole card). -/
def BJGame.get_auto_play_decision (g : BJGame) : String :=
  match g.player.get_current_hand with
  | none => "stand"
  | some current_hand =>
    if current_hand.is_bust then "stand"
    else
      let player_value := current_hand.get_value
      match g.dealer.hand.head? with
      | none => "stand"
      | some dealer_up_card =>
        let dealer_rank := dealer_up_card.rank
        if [Rank.two, Rank.three, Rank.four, Rank.five,
            Rank.six].contains dealer_rank then
          if g.auto_strategy == "basic" then "stand"
          else if g.auto_strategy == "conservative" then
            (if 13 ≤ player_value then "stand" else "hit")
          else if g.auto_strategy == "aggressive" then
            (if 18 ≤ player_value then "stand" else "hit")
          else "stand"
        else if [Rank.seven, Rank.eight, Rank.nine, Rank.ten, Rank.jack,
            Rank.queen, Rank.king, Rank.ace].contains dealer_rank then
          if g.auto_strategy == "basic" then
            (if 16 < player_value then "stand" else "hit")
          else if g.auto_strategy == "conservative" then
            (if 17 ≤ player_value then "stand" else "hit")
          else if g.auto_strategy == "aggressive" then
            (if 17 ≤ player_value then "stand" else "hit")
          else "stand"
        else "stand"

/-- _should_double_down per the preference and the basic-strategy table. -/
def BJGame.should_double_down_auto (g : BJGame) : Bool :=
  if g.auto_double_down_pref == "never" then false
  else if g.auto_double_down_pref == "always" then
    match g.player.get_current_hand with
    | none => false
    | some ch => ch.can_double_down && decide (ch.bet ≤ g.player.chips)
  else
    match g.player.get_current_hand with
    | none => false
    | some ch =>
      if ¬ ch.can_double_down ∨ g.player.chips < ch.bet then false
      else
        let player_value := ch.get_value
        match g.dealer.hand.head? with
        | none => false
        | some up =>
          if (player_value = 9 ∨ player_value = 10 ∨ player_value = 11) ∧
              [Rank.two, Rank.three, Rank.four, Rank.five,
               Rank.six].contains up.rank then true
          else if ch.cards.length = 2 ∧
              ch.cards.any (fun c => c.rank == Rank.ace) ∧
              (13 ≤ player_value ∧ player_value ≤ 18) ∧
              [Rank.four, Rank.five, Rank.six].contains up.rank then true
          else false

/-- _should_split per the preference and the basic-strategy table. -/
def BJGame.should_split_auto (g : BJGame) : Bool :=
  if g.auto_split_pref == "never" then false
  else if g.auto_split_pref == "always" then
    match g.player.get_current_hand with
    | none => false
    | some ch =>
      ch.can_split && decide (g.player.hands.length < 4) &&
        decide (ch.bet ≤ g.player.chips)
  else
    match g.player.get_current_hand with
    | none => false
    | some ch =>
      if ¬ ch.can_split ∨ 4 ≤ g.player.hands.length ∨
          g.player.chips < ch.bet then false
      else
        match ch.cards, g.dealer.hand.head? with
        | [card1, card2], some up =>
          if card1.rank == card2.rank &&
              [Rank.ace, Rank.eight].contains card1.rank then true
          else if card1.rank == card2.rank &&
              [Rank.two, Rank.three, Rank.six, Rank.seven,
               Rank.nine].contains card1.rank &&
              [Rank.two, Rank.three, Rank.four, Rank.five,
               Rank.six].contains up.rank then true
          else if card1.rank == card2.rank && card1.rank == Rank.four &&
              [Rank.five, Rank.six].contains up.rank then true
          else false
        | _, _ => false

/-- _should_surrender per the preference and the basic-strategy table. -/
def BJGame.should_surrender_auto (g : BJGame) : Bool :=
  if g.auto_surrender_pref == "never" then false
  else if g.auto_surrender_pref == "always" then
    match g.player.get_current_hand with
    | none => false
    | some ch =>
      if ch.cards.length ≠ 2 ∨ ch.is_blackjack then false else true
  else
    match g.player.get_current_hand with
    | none => false
    | some ch =>
      if ch.cards.length ≠ 2 ∨ ch.is_blackjack then false
      else
        let player_value := ch.get_value
        match g.dealer.hand.head? with
        | none => false
        | some up =>
          if up.rank == Rank.ten ∧ (player_value = 15 ∨ player_value = 16)
          then true
          else if up.rank == Rank.nine ∧ player_value = 16 then true
          else false

/-- The bet computation at the top of each run_auto_cycle round; the
progressive strategy also records the bet it chose. -/
def computeAutoBet (g : BJGame) : Int × BJGame :=
  if g.auto_betting_strategy == "fixed" then (g.auto_default_bet, g)
  else if g.auto_betting_strategy == "progressive" then
    let bet_amount :=
      if g.auto_last_result == some "loss" then
        let prev_bet :=
          if 0 < g.auto_progressive_bet then g.auto_progressive_bet
          else g.auto_default_bet
        max (min (prev_bet * 2) g.max_bet) g.auto_default_bet
      else g.auto_default_bet
    (bet_amount, { g with auto_progressive_bet := bet_amount })
  else if g.auto_betting_strategy == "percentage" then
    (min (max 1 (g.player.chips * (g.auto_bet_percentage.getD 0) / 100))
       g.max_bet, g)
  else (g.auto_default_bet, g)

/-- The hit-failure test for the blocked-on-split-aces fallback:
the message is non-empty and contains the words split aces. -/
def mentionsSplitAces (msg : String) : Bool :=
  msg != "" && decide (1 < (msg.toLower.splitOn "split aces").length)

/-- The inner player-turn loop of run_auto_cycle: surrender, split,
split-aces auto-stand, double down, then hit or stand per the strategy,
one action per iteration. -/
def autoPlayerLoop : Nat → BJGame → BJGame
  | 0, g => g
  | fuel + 1, g =>
    if g.state = GameState.PLAYER_TURN then
      match g.player.get_current_hand with
      | none => g
      | some current_hand =>
        if g.should_surrender_auto then
          let p := g.surrender
          if ¬ p.1.success then
            p.2.stop_auto_mode (some ("Auto mode stopped: " ++ p.1.message))
          else autoPlayerLoop fuel p.2
        else
          let sp : Bool × BJGame :=
            if g.should_split_auto then
              let p := g.split
              (p.1.success, p.2)
            else (false, g)
          if sp.1 then autoPlayerLoop fuel sp.2
          else
            let g := sp.2
            if current_hand.is_from_split_aces then
              let p := g.stand
              if ¬ p.1.success then
                p.2.stop_auto_mode
                  (some ("Auto mode stopped: " ++ p.1.message))
              else autoPlayerLoop fuel p.2
            else
              let dd : Bool × BJGame :=
                if g.should_double_down_auto then
                  let p := g.double_down
                  (p.1.success, p.2)
                else (false, g)
              if dd.1 then autoPlayerLoop fuel dd.2
              else
                let g := dd.2
                if g.get_auto_play_decision == "hit" then
                  let p := g.hit
                  if ¬ p.1.success then
                    if mentionsSplitAces p.1.message then
                      let q := p.2.stand
                      if ¬ q.1.success then
                        q.2.stop_auto_mode
                          (some ("Auto mode stopped: " ++ q.1.message))
                      else autoPlayerLoop fuel q.2
                    else
                      p.2.stop_auto_mode
                        (some ("Auto mode stopped: " ++ p.1.message))
                  else if p.1.bust then p.2
                  else autoPlayerLoop fuel p.2
                else
                  let p := g.stand
                  if ¬ p.1.success then
                    p.2.stop_auto_mode
                      (some ("Auto mode stopped: " ++ p.1.message))
                  else p.2
    else g

/-- run_auto_cycle, lines after a finished round: force settlement if
needed, record the result for progressive betting, count the round, then
finish or start the next round. -/
def BJGame.autoPostRound (g : BJGame) (shuffle : List Card → List Card) :
    BJGame :=
  let g := if g.state ≠ GameState.GAME_OVER then g.determine_results else g
  let g := { g with auto_last_result := g.result }
  let g := { g with auto_hands_remaining := g.auto_hands_remaining - 1 }
  if g.auto_hands_remaining ≤ 0 then
    g.stop_auto_mode (some "Auto mode finished")
  else
    ({ g with auto_status := some ("Auto mode running (" ++
        toString g.auto_hands_remaining ++
        " hands remaining)") }).new_game shuffle true

/-- run_auto_cycle, the even-money continue path: count the round and
finish or start the next round without touching auto_last_result. -/
def BJGame.autoEvenMoneyBookkeeping (g : BJGame)
    (shuffle : List Card → List Card) : BJGame :=
  let g := { g with auto_hands_remaining := g.auto_hands_remaining - 1 }
  if g.auto_hands_remaining ≤ 0 then
    g.stop_auto_mode (some "Auto mode finished")
  else
    ({ g with auto_status := some ("Auto mode running (" ++
        toString g.auto_hands_remaining ++
        " hands remaining)") }).new_game shuffle true

/-- run_auto_cycle after the offers are resolved: play out the player
turn, break if a stop occurred inside it, otherwise the round tail. -/
def BJGame.autoAfterOffers (g : BJGame) (shuffle : List Card → List Card)
    (innerFuel : Nat) : BJGame :=
  if g.state = GameState.PLAYER_TURN then
    let g := autoPlayerLoop innerFuel g
    if ¬ g.auto_mode_active then g else g.autoPostRound shuffle
  else g.autoPostRound shuffle

/-- run_auto_cycle after a successful deal: resolve an insurance offer and
an even-money offer per the configured preference. -/
def BJGame.autoAfterDeal (g : BJGame) (shuffle : List Card → List Card)
    (innerFuel : Nat) : BJGame :=
  let step2 := fun (g : BJGame) =>
    if g.even_money_offer_active then
      let decision :=
        if g.auto_insurance_mode == some "always" then "even_money"
        else "decline"
      let p := g.insurance_decision decision
      if ¬ p.1.success then
        p.2.stop_auto_mode (some ("Auto mode stopped: " ++ p.1.message))
      else if p.2.state = GameState.GAME_OVER then
        p.2.autoEvenMoneyBookkeeping shuffle
      else p.2.autoAfterOffers shuffle innerFuel
    else g.autoAfterOffers shuffle innerFuel
  if g.insurance_offer_active then
    let decision :=
      if g.auto_insurance_mode == some "always" then "buy" else "decline"
    let p := g.insurance_decision decision
    if ¬ p.1.success then
      p.2.stop_auto_mode (some ("Auto mode stopped: " ++ p.1.message))
    else step2 p.2
  else step2 g

/-- The start-of-round step of run_auto_cycle: ensure a betting state. -/
def BJGame.autoEnsureBetting (g : BJGame)
    (shuffle : List Card → List Card) : BJGame :=
  if g.state ≠ GameState.BETTING then g.new_game shuffle true else g

/-- One full iteration of the run_auto_cycle while loop. -/
def BJGame.autoRoundBody (g : BJGame) (shuffle : List Card → List Card)
    (innerFuel : Nat) : BJGame :=
  let g := g.autoEnsureBetting shuffle
  let pair := computeAutoBet g
  let bet_amount := pair.1
  let g := pair.2
  if g.player.chips < bet_amount then
    g.stop_auto_mode (some "Auto mode stopped: insufficient bankroll")
  else
    let p := g.place_bet bet_amount
    if ¬ p.1.success then
      p.2.stop_auto_mode (some ("Auto mode stopped: " ++ p.1.message))
    else
      let q := p.2.deal_initial_cards
      if ¬ q.1.success then
        q.2.stop_auto_mode (some ("Auto mode stopped: " ++ q.1.message))
      else q.2.autoAfterDeal shuffle innerFuel

/-- run_auto_cycle: loop rounds while auto mode is active, then the final
default-status fixup.  The fuel bounds the number of rounds examined. -/
def runAutoCycle (shuffle : List Card → List Card) (innerFuel : Nat) :
    Nat → BJGame → BJGame
  | 0, g => g
  | fuel + 1, g =>
    if g.is_auto_mode_active then
      runAutoCycle shuffle innerFuel fuel (g.autoRoundBody shuffle innerFuel)
    else
      if ¬ g.auto_mode_active ∧ g.auto_status = none then
        { g with auto_status := some "Auto mode stopped" }
      else g

/-! ### Claim C9: the auto-play bankroll guard -/

theorem stop_auto_mode_player (g : BJGame) (s : Option String) :
    (g.stop_auto_mode s).player = g.player := rfl

theorem new_game_chips (g : BJGame) (shuffle : List Card → List Card)
    (b : Bool) : (g.new_game shuffle b).player.chips = g.player.chips := by
  rw [BJGame.new_game]
  dsimp only
  repeat' split
  all_goals rfl

theorem computeAutoBet_player (g : BJGame) :
    (computeAutoBet g).2.player = g.player := by
  rw [computeAutoBet]
  dsimp only
  split
  · rfl
  · split
    · rfl
    · split <;> rfl

theorem runAutoCycle_stopped (shuffle : List Card → List Card)
    (innerFuel : Nat) (g : BJGame) (s : String)
    (hact : g.auto_mode_active = false)
    (hst : g.auto_status = some s) :
    ∀ fuel, runAutoCycle shuffle innerFuel fuel g = g := by
  intro fuel
  cases fuel with
  | zero => rfl
  | succ fuel =>
    rw [runAutoCycle]
    rw [if_neg (by simp [BJGame.is_auto_mode_active, hact])]
    rw [if_neg (by simp [hst])]

/-- C9: whenever a round of the auto-play driver starts with a bankroll
strictly below the bet the configured betting strategy computes, the
driver halts at once with the insufficient-bankroll status: auto mode is
off, the terminal status is recorded, no bet is placed and the player
account (in particular the chip balance) is exactly what it was at the
start of that round. -/
theorem auto_bankroll_guard (g : BJGame) (shuffle : List Card → List Card)
    (innerFuel f : Nat)
    (hact : g.is_auto_mode_active = true)
    (hins : (computeAutoBet (g.autoEnsureBetting shuffle)).2.player.chips <
      (computeAutoBet (g.autoEnsureBetting shuffle)).1) :
    (runAutoCycle shuffle innerFuel (f + 1) g).auto_status =
      some "Auto mode stopped: insufficient bankroll" ∧
    (runAutoCycle shuffle innerFuel (f + 1) g).auto_mode_active = false ∧
    (runAutoCycle shuffle innerFuel (f + 1) g).player =
      (computeAutoBet (g.autoEnsureBetting shuffle)).2.player ∧
    (runAutoCycle shuffle innerFuel (f + 1) g).player.chips =
      g.player.chips := by
  have hbody : g.autoRoundBody shuffle innerFuel =
      (computeAutoBet (g.autoEnsureBetting shuffle)).2.stop_auto_mode
        (some "Auto mode stopped: insufficient bankroll") := by
    rw [BJGame.autoRoundBody]
    dsimp only
    rw [if_pos hins]
  have hrun : runAutoCycle shuffle innerFuel (f + 1) g =
      (computeAutoBet (g.autoEnsureBetting shuffle)).2.stop_auto_mode
        (some "Auto mode stopped: insufficient bankroll") := by
    rw [runAutoCycle, if_pos hact, hbody]
    exact runAutoCycle_stopped shuffle innerFuel _ _ rfl rfl f
  have hchips : (g.autoEnsureBetting shuffle).player.chips =
      g.player.chips := by
    rw [BJGame.autoEnsureBetting]
    split
    · exact new_game_chips g shuffle true
    · rfl
  refine ⟨by rw [hrun]; rfl, by rw [hrun]; rfl, by rw [hrun]; rfl, ?_⟩
  rw [hrun, stop_auto_mode_player, computeAutoBet_player, hchips]

/-- Witness for C9: a concrete active auto game holding 50 chips against a
fixed bet of 100 halts with the insufficient-bankroll status. -/
theorem auto_bankroll_guard_witness :
    ((runAutoCycle id 1 1
      { num_decks := 6, deck := { cards := [], num_decks := 6 },
        player := { chips := 50, hands := [Hand.empty],
                    current_hand_index := 0, total_wins := 0,
                    total_losses := 0, total_blackjacks := 0 },
        dealer := { hand := [], hole_card_hidden := true },
        state := GameState.BETTING, result := none, min_bet := 5,
        max_bet := 500, dealer_hits_soft_17 := false,
        insurance_offer_active := false, insurance_for_hand_index := none,
        insurance_amount := 0, insurance_taken := false,
        even_money_offer_active := false, insurance_outcome := none,
        auto_mode_active := true, auto_hands_remaining := 3,
        auto_default_bet := 100, auto_insurance_mode := some "never",
        auto_strategy := "basic", auto_betting_strategy := "fixed",
        auto_bet_percentage := none, auto_double_down_pref := "recommended",
        auto_split_pref := "recommended", auto_surrender_pref := "recommended",
        auto_progressive_bet := 0, auto_last_result := none,
        auto_status := some "Auto mode running (3 hands remaining)",
        dealer_peeked := false, force_dealer_hand := none,
        pending_forced_dealer_cards := none }).auto_status =
      some "Auto mode stopped: insufficient bankroll") ∧
    ((runAutoCycle id 1 1
      { num_decks := 6, deck := { cards := [], num_decks := 6 },
        player := { chips := 50, hands := [Hand.empty],
                    current_hand_index := 0, total_wins := 0,
                    total_losses := 0, total_blackjacks := 0 },
        dealer := { hand := [], hole_card_hidden := true },
        state := GameState.BETTING, result := none, min_bet := 5,
        max_bet := 500, dealer_hits_soft_17 := false,
        insurance_offer_active := false, insurance_for_hand_index := none,
        insurance_amount := 0, insurance_taken := false,
        even_money_offer_active := false, insurance_outcome := none,
        auto_mode_active := true, auto_hands_remaining := 3,
        auto_default_bet := 100, auto_insurance_mode := some "never",
        auto_strategy := "basic", auto_betting_strategy := "fixed",
        auto_bet_percentage := none, auto_double_down_pref := "recommended",
        auto_split_pref := "recommended", auto_surrender_pref := "recommended",
        auto_progressive_bet := 0, auto_last_result := none,
        auto_status := some "Auto mode running (3 hands remaining)",
        dealer_peeked := false, force_dealer_hand := none,
        pending_forced_dealer_cards := none }).player.chips = 50) := by
  have h := auto_bankroll_guard
    { num_decks := 6, deck := { cards := [], num_decks := 6 },
      player := { chips := 50, hands := [Hand.empty],
                  current_hand_index := 0, total_wins := 0,
                  total_losses := 0, total_blackjacks := 0 },
      dealer := { hand := [], hole_card_hidden := true },
      state := GameState.BETTING, result := none, min_bet := 5,
      max_bet := 500, dealer_hits_soft_17 := false,
      insurance_offer_active := false, insurance_for_hand_index := none,
      insurance_amount := 0, insurance_taken := false,
      even_money_offer_active := false, insurance_outcome := none,
      auto_mode_active := true, auto_hands_remaining := 3,
      auto_default_bet := 100, auto_insurance_mode := some "never",
      auto_strategy := "basic", auto_betting_strategy := "fixed",
      auto_bet_percentage := none, auto_double_down_pref := "recommended",
      auto_split_pref := "recommended", auto_surrender_pref := "recommended",
      auto_progressive_bet := 0, auto_last_result := none,
      auto_status := some "Auto mode running (3 hands remaining)",
      dealer_peeked := false, force_dealer_hand := none,
      pending_forced_dealer_cards := none } id 1 0 (by decide) (by decide)
  exact ⟨h.1, h.2.2.2⟩

/-! ### Claim C10: chips stay non-negative across every operation -/

/-- Every recorded bet is non-negative. -/
def BetsNonneg (hands : List Hand) : Prop :=
  ∀ h ∈ hands, 0 ≤ h.bet

/-- The funds invariant: non-negative chips, non-negative bets and a
non-negative insurance stake. -/
def ChipsInv (g : BJGame) : Prop :=
  0 ≤ g.player.chips ∧ BetsNonneg g.player.hands ∧ 0 ≤ g.insurance_amount

inductive GameOp where
  | place_bet (amount : Int)
  | deal_initial_cards
  | hit
  | stand
  | double_down
  | split
  | surrender
  | insurance_decision (decision : String)
  | settle
deriving DecidableEq, Repr

def applyGameOp : GameOp → BJGame → BJGame
  | .place_bet a, g => (g.place_bet a).2
  | .deal_initial_cards, g => (g.deal_initial_cards).2
  | .hit, g => (g.hit).2
  | .stand, g => (g.stand).2
  | .double_down, g => (g.double_down).2
  | .split, g => (g.split).2
  | .surrender, g => (g.surrender).2
  | .insurance_decision d, g => (g.insurance_decision d).2
  | .settle, g => g.determine_results

theorem mem_of_mem_set {α : Type} {l : List α} {i : Nat} {a b : α}
    (h : b ∈ l.set i a) : b = a ∨ b ∈ l := by
  induction l generalizing i with
  | nil => simp at h
  | cons x xs ih =>
    cases i with
    | zero =>
      rw [List.set_cons_zero] at h
      rcases List.mem_cons.mp h with rfl | h
      · exact Or.inl rfl
      · exact Or.inr (List.mem_cons_of_mem _ h)
    | succ n =>
      rw [List.set_cons_succ] at h
      rcases List.mem_cons.mp h with rfl | h
      · exact Or.inr (List.mem_cons_self _ _)
      · rcases ih h with h | h
        · exact Or.inl h
        · exact Or.inr (List.mem_cons_of_mem _ h)

theorem BetsNonneg_set {hs : List Hand} {i : Nat} {h : Hand}
    (hb : BetsNonneg hs) (hh : 0 ≤ h.bet) : BetsNonneg (hs.set i h) := by
  intro x hx
  rcases mem_of_mem_set hx with rfl | hx
  · exact hh
  · exact hb x hx

theorem mem_of_getElem? {α : Type} {l : List α} {i : Nat} {a : α}
    (h : l[i]? = some a) : a ∈ l := by
  induction l generalizing i with
  | nil => simp at h
  | cons x xs ih =>
    cases i with
    | zero =>
      simp only [List.getElem?_cons_zero, Option.some.injEq] at h
      exact h ▸ List.mem_cons_self _ _
    | succ n =>
      rw [List.getElem?_cons_succ] at h
      exact List.mem_cons_of_mem _ (ih h)

theorem get_current_hand_mem {p : Player} {ch : Hand}
    (h : p.get_current_hand = some ch) : ch ∈ p.hands :=
  mem_of_getElem? h

theorem win_hands (p : Player) (i : Nat) (b : Bool) :
    (p.win i b).hands = p.hands := by
  rw [Player.win]
  repeat' split
  all_goals rfl

theorem win_chips (p : Player) (i : Nat) (b : Bool)
    (hb : BetsNonneg p.hands) : p.chips ≤ (p.win i b).chips := by
  rw [Player.win]
  split
  · exact le_refl _
  · split
    · exact le_refl _
    · rename_i hand heq
      have hbet : 0 ≤ hand.bet := hb hand (mem_of_getElem? heq)
      dsimp only
      split
      · have : (0 : Int) ≤ 5 * hand.bet / 2 :=
          Int.ediv_nonneg (by linarith) (by norm_num)
        omega
      · omega

theorem push_hands (p : Player) (i : Nat) : (p.push i).hands = p.hands := by
  rw [Player.push]
  split
  all_goals rfl

theorem push_chips (p : Player) (i : Nat)
    (hb : BetsNonneg p.hands) : p.chips ≤ (p.push i).chips := by
  rw [Player.push]
  split
  · rename_i hand heq
    have hbet : 0 ≤ hand.bet := hb hand (mem_of_getElem? heq)
    dsimp only
    omega
  · exact le_refl _

theorem determineLoop_player (dv : Nat) (db : Bool) (L : List (Nat × Hand))
    (p : Player) (r : Option String) (rs : Bool)
    (hb : BetsNonneg p.hands) :
    (determineLoop dv db L p r rs).1.hands = p.hands ∧
      p.chips ≤ (determineLoop dv db L p r rs).1.chips := by
  induction L generalizing p r rs with
  | nil => exact ⟨rfl, le_refl _⟩
  | cons x rest ih =>
    obtain ⟨i, hand⟩ := x
    rw [determineLoop]
    dsimp only
    repeat' split
    all_goals first
      | exact ih _ _ _ hb
      | exact ⟨(ih _ _ _ (by rw [win_hands]; exact hb)).1.trans
            (win_hands _ _ _),
          le_trans (win_chips _ _ _ hb)
            (ih _ _ _ (by rw [win_hands]; exact hb)).2⟩
      | exact ⟨(ih _ _ _ (by rw [push_hands]; exact hb)).1.trans
            (push_hands _ _),
          le_trans (push_chips _ _ hb)
            (ih _ _ _ (by rw [push_hands]; exact hb)).2⟩

theorem peekSettleLoop_player (L : List (Nat × Hand)) (p : Player)
    (r : Option String) (hb : BetsNonneg p.hands) :
    (peekSettleLoop L p r).1.hands = p.hands ∧
      p.chips ≤ (peekSettleLoop L p r).1.chips := by
  induction L generalizing p r with
  | nil => exact ⟨rfl, le_refl _⟩
  | cons x rest ih =>
    obtain ⟨i, hand⟩ := x
    rw [peekSettleLoop]
    split
    · exact ⟨(ih _ _ (by rw [push_hands]; exact hb)).1.trans (push_hands _ _),
        le_trans (push_chips _ _ hb)
          (ih _ _ (by rw [push_hands]; exact hb)).2⟩
    · exact ih _ _ hb

theorem determine_results_inv (g : BJGame) (hinv : ChipsInv g) :
    ChipsInv g.determine_results := by
  obtain ⟨hc, hb, hi⟩ := hinv
  rw [BJGame.determine_results]
  dsimp only
  obtain ⟨hhands, hchips⟩ := determineLoop_player g.dealer.get_value
    g.dealer.is_bust g.player.hands.enum g.player g.result false hb
  have hb' : BetsNonneg (determineLoop g.dealer.get_value g.dealer.is_bust
      g.player.hands.enum g.player g.result false).1.hands := by
    rw [hhands]
    exact hb
  repeat' split
  all_goals refine ⟨?_, hb', ?_⟩ <;> dsimp only <;> omega

theorem dealer_peek_inv (g : BJGame) (hinv : ChipsInv g) :
    ChipsInv (g.dealer_peek_and_check_blackjack).2 := by
  obtain ⟨hc, hb, hi⟩ := hinv
  rw [BJGame.dealer_peek_and_check_blackjack]
  dsimp only
  obtain ⟨hhands, hchips⟩ := peekSettleLoop_player g.player.hands.enum
    g.player g.result hb
  have hb' : BetsNonneg (peekSettleLoop g.player.hands.enum g.player
      g.result).1.hands := by
    rw [hhands]
    exact hb
  repeat' split
  all_goals exact ⟨by dsimp only <;> omega, by assumption, by assumption⟩

theorem place_bet_inv (p : Player) (a : Int) (i : Nat)
    (hc : 0 ≤ p.chips) (hb : BetsNonneg p.hands) :
    0 ≤ (p.place_bet a i).2.chips ∧ BetsNonneg (p.place_bet a i).2.hands := by
  rw [Player.place_bet]
  split
  · exact ⟨hc, hb⟩
  · split
    · exact ⟨hc, hb⟩
    · split
      · exact ⟨hc, hb⟩
      · split
        · exact ⟨hc, hb⟩
        · refine ⟨?_, BetsNonneg_set hb ?_⟩
          · dsimp only
            omega
          · dsimp only
            omega

theorem current_hand_bet_nonneg {p : Player} {ch : Hand}
    (heq : p.get_current_hand = some ch) (hb : BetsNonneg p.hands) :
    0 ≤ ch.bet :=
  hb ch (get_current_hand_mem heq)

theorem move_to_next_inv (g : BJGame) (hinv : ChipsInv g) :
    ChipsInv (g.move_to_next_hand).2 := by
  rw [BJGame.move_to_next_hand]
  dsimp only
  split
  all_goals exact hinv

theorem mem_of_mem_insertIdx {α : Type} {l : List α} {i : Nat} {a b : α}
    (h : b ∈ l.insertIdx i a) : b = a ∨ b ∈ l := by
  induction l generalizing i with
  | nil =>
    cases i with
    | zero =>
      rw [show ([] : List α).insertIdx 0 a = [a] from rfl] at h
      exact Or.inl (List.mem_singleton.mp h)
    | succ n =>
      rw [show ([] : List α).insertIdx (n + 1) a = [] from rfl] at h
      simp at h
  | cons x xs ih =>
    cases i with
    | zero =>
      rw [show (x :: xs).insertIdx 0 a = a :: x :: xs from rfl] at h
      rcases List.mem_cons.mp h with rfl | h
      · exact Or.inl rfl
      · exact Or.inr h
    | succ n =>
      rw [show (x :: xs).insertIdx (n + 1) a = x :: xs.insertIdx n a
        from rfl] at h
      rcases List.mem_cons.mp h with rfl | h
      · exact Or.inr (List.mem_cons_self _ _)
      · rcases ih h with h | h
        · exact Or.inl h
        · exact Or.inr (List.mem_cons_of_mem _ h)

theorem BetsNonneg_insertIdx {hs : List Hand} {i : Nat} {h : Hand}
    (hb : BetsNonneg hs) (hh : 0 ≤ h.bet) : BetsNonneg (hs.insertIdx i h) := by
  intro x hx
  rcases mem_of_mem_insertIdx hx with rfl | hx
  · exact hh
  · exact hb x hx

theorem split_hand_inv (p : Player) (i : Nat)
    (hc : 0 ≤ p.chips) (hb : BetsNonneg p.hands) :
    0 ≤ (p.split_hand i).2.chips ∧ BetsNonneg (p.split_hand i).2.hands := by
  rw [Player.split_hand]
  dsimp only
  split
  · exact ⟨hc, hb⟩
  · split
    · exact ⟨hc, hb⟩
    · next hand heq =>
      split
      · exact ⟨hc, hb⟩
      · split
        · exact ⟨hc, hb⟩
        · split
          · exact ⟨hc, hb⟩
          · have hbet : 0 ≤ hand.bet := hb hand (mem_of_getElem? heq)
            refine ⟨?_, BetsNonneg_insertIdx (BetsNonneg_set hb hbet) hbet⟩
            dsimp only
            omega

theorem dealToOneCardHands_bets (hs : List Hand) (d : Deck)
    (hb : BetsNonneg hs) : BetsNonneg (dealToOneCardHands hs d).1 := by
  induction hs generalizing d with
  | nil =>
    intro x hx
    rw [dealToOneCardHands] at hx
    simp at hx
  | cons h rest ih =>
    have hbh : 0 ≤ h.bet := hb h (List.mem_cons_self _ _)
    have hbrest : BetsNonneg rest := fun x hx =>
      hb x (List.mem_cons_of_mem _ hx)
    rw [dealToOneCardHands]
    dsimp only
    split
    · intro x hx
      rcases List.mem_cons.mp hx with rfl | hx
      · split
        · exact hbh
        · exact hbh
      · exact ih _ hbrest x hx
    · intro x hx
      rcases List.mem_cons.mp hx with rfl | hx
      · exact hbh
      · exact ih _ hbrest x hx

theorem force_step_player (g : BJGame) :
    g.force_dealer_hand_step.player = g.player := by
  rw [BJGame.force_dealer_hand_step]
  split
  · rfl
  · dsimp only
    repeat' split
    all_goals rfl

theorem force_step_insurance (g : BJGame) :
    g.force_dealer_hand_step.insurance_amount = g.insurance_amount := by
  rw [BJGame.force_dealer_hand_step]
  split
  · rfl
  · dsimp only
    repeat' split
    all_goals rfl

theorem dealSetupForce_player (g : BJGame) :
    g.dealSetupForce.player = g.player := by
  rw [BJGame.dealSetupForce]
  split
  · split
    · rw [force_step_player, force_step_player]
    · rw [force_step_player]
  · split
    · rw [force_step_player]
    · rfl

theorem dealSetupForce_insurance (g : BJGame) :
    g.dealSetupForce.insurance_amount = g.insurance_amount := by
  rw [BJGame.dealSetupForce]
  split
  · split
    · rw [force_step_insurance, force_step_insurance]
    · rw [force_step_insurance]
  · split
    · rw [force_step_insurance]
    · rfl

theorem BetsNonneg_update_add (p : Player) (i : Nat) (ch : Hand)
    (cs : List Card) (hb : BetsNonneg p.hands) (hch : 0 ≤ ch.bet) :
    BetsNonneg (p.updateHand i (ch.add_cards cs)).hands :=
  BetsNonneg_set hb hch

theorem dealRound_inv (g : BJGame) (ch : Hand) (hc : 0 ≤ g.player.chips)
    (hb : BetsNonneg g.player.hands) (hi : 0 ≤ g.insurance_amount)
    (hbet : 0 ≤ ch.bet) : ChipsInv (g.dealRound ch).2 := by
  rw [BJGame.dealRound]
  dsimp only
  repeat' split
  all_goals first
    | exact dealer_peek_inv _
        ⟨hc, BetsNonneg_update_add _ _ _ _ hb hbet, hi⟩
    | (refine ⟨?_, ?_, ?_⟩ <;>
        first
        | exact hc
        | exact hi
        | exact le_trans hc
            (push_chips _ _ (BetsNonneg_update_add _ _ _ _ hb hbet))
        | exact le_trans hc
            (win_chips _ _ _ (BetsNonneg_update_add _ _ _ _ hb hbet))
        | exact BetsNonneg_update_add _ _ _ _ hb hbet
        | (dsimp only
           rw [push_hands]
           exact BetsNonneg_update_add _ _ _ _ hb hbet)
        | (dsimp only
           rw [win_hands]
           exact BetsNonneg_update_add _ _ _ _ hb hbet)
        | (dsimp only
           refine Int.ediv_nonneg ?_ (by norm_num)
           first
           | decide
           | (rename_i h2 heq2
              exact current_hand_bet_nonneg heq2
                (BetsNonneg_update_add _ _ _ _ hb hbet))))

/-- C10: starting from any state satisfying the funds invariant, every
public operation of the round state machine keeps the chip balance (and
every recorded bet and the insurance stake) non-negative: each debit is
guarded by a sufficient-funds check before chips are subtracted. -/
theorem operations_keep_chips_nonneg (op : GameOp) (g : BJGame)
    (hinv : ChipsInv g) : ChipsInv (applyGameOp op g) := by
  obtain ⟨hc, hb, hi⟩ := hinv
  cases op with
  | place_bet a =>
    show ChipsInv (g.place_bet a).2
    rw [BJGame.place_bet]
    dsimp only
    split
    · exact ⟨hc, hb, hi⟩
    · split
      · exact ⟨hc, hb, hi⟩
      · split
        · exact ⟨hc, hb, hi⟩
        · split
          · exact ⟨hc, hb, hi⟩
          · split
            · exact ⟨hc, hb, hi⟩
            · split
              · exact ⟨(place_bet_inv g.player a 0 hc hb).1,
                  (place_bet_inv g.player a 0 hc hb).2, hi⟩
              · exact ⟨(place_bet_inv g.player a 0 hc hb).1,
                  (place_bet_inv g.player a 0 hc hb).2, hi⟩
  | deal_initial_cards =>
    show ChipsInv (g.deal_initial_cards).2
    rw [BJGame.deal_initial_cards]
    dsimp only
    split
    · exact ⟨hc, hb, hi⟩
    · split
      · exact ⟨hc, hb, hi⟩
      · next ch heq =>
        split
        · exact ⟨hc, hb, hi⟩
        · have hbet : 0 ≤ ch.bet := current_hand_bet_nonneg heq hb
          have hSp : (({ g with state := GameState.DEALING } :
              BJGame).dealSetupForce).player = g.player :=
            dealSetupForce_player _
          have hSi : (({ g with state := GameState.DEALING } :
              BJGame).dealSetupForce).insurance_amount = g.insurance_amount :=
            dealSetupForce_insurance _
          exact dealRound_inv _ ch (by rw [hSp]; exact hc)
            (by rw [hSp]; exact hb) (by rw [hSi]; exact hi) hbet
  | hit =>
    show ChipsInv (g.hit).2
    rw [BJGame.hit]
    dsimp only
    split
    · exact ⟨hc, hb, hi⟩
    · split
      · exact ⟨hc, hb, hi⟩
      · split
        · exact ⟨hc, hb, hi⟩
        · next ch heq =>
          split
          · exact ⟨hc, hb, hi⟩
          · split
            · exact ⟨hc, hb, hi⟩
            · next card deck heq2 =>
              have hbet : 0 ≤ ch.bet := current_hand_bet_nonneg heq hb
              have hbP : BetsNonneg (g.player.updateHand
                  g.player.current_hand_index (ch.add_card card)).hands :=
                BetsNonneg_set hb hbet
              split
              · split
                · exact move_to_next_inv _
                    ⟨le_trans hc (win_chips _ _ _ hbP),
                     by rw [win_hands]; exact hbP, hi⟩
                · exact move_to_next_inv _
                    ⟨le_trans hc (win_chips _ _ _ hbP),
                     by rw [win_hands]; exact hbP, hi⟩
              · split
                · split
                  · exact move_to_next_inv _ ⟨hc, hbP, hi⟩
                  · exact move_to_next_inv _ ⟨hc, hbP, hi⟩
                · exact ⟨hc, hbP, hi⟩
  | stand =>
    show ChipsInv (g.stand).2
    rw [BJGame.stand]
    dsimp only
    split
    · exact ⟨hc, hb, hi⟩
    · split
      · exact ⟨hc, hb, hi⟩
      · split
        · exact move_to_next_inv g ⟨hc, hb, hi⟩
        · exact determine_results_inv _ (move_to_next_inv g ⟨hc, hb, hi⟩)
  | double_down =>
    show ChipsInv (g.double_down).2
    rw [BJGame.double_down]
    dsimp only
    split
    · exact ⟨hc, hb, hi⟩
    · split
      · exact ⟨hc, hb, hi⟩
      · next ch heq =>
        split
        · exact ⟨hc, hb, hi⟩
        · split
          · exact ⟨hc, hb, hi⟩
          · split
            · exact ⟨hc, hb, hi⟩
            · have hbet : 0 ≤ ch.bet := current_hand_bet_nonneg heq hb
              have hb2 : 0 ≤ (ch.double_down).bet := by
                rw [Hand.double_down]
                dsimp only
                omega
              have hbP : BetsNonneg ((g.player.updateHand
                  g.player.current_hand_index ch.double_down).hands) :=
                BetsNonneg_set hb hb2
              have hchips : 0 ≤ (g.player.updateHand
                  g.player.current_hand_index ch.double_down).chips -
                  (ch.double_down).bet / 2 := by
                dsimp only [Player.updateHand, Hand.double_down]
                omega
              split
              · exact ⟨hchips, hbP, hi⟩
              · next card deck heq2 =>
                have hbP2 : BetsNonneg ((g.player.hands.set
                    g.player.current_hand_index ch.double_down).set
                    g.player.current_hand_index
                    ((ch.double_down).add_card card)) :=
                  BetsNonneg_set (BetsNonneg_set hb hb2) hb2
                split
                · split
                  · exact move_to_next_inv _ ⟨hchips, hbP2, hi⟩
                  · exact determine_results_inv _
                      (move_to_next_inv _ ⟨hchips, hbP2, hi⟩)
                · split
                  · exact move_to_next_inv _ ⟨hchips, hbP2, hi⟩
                  · exact determine_results_inv _
                      (move_to_next_inv _ ⟨hchips, hbP2, hi⟩)
  | split =>
    show ChipsInv (g.split).2
    rw [BJGame.split]
    dsimp only
    split
    · exact ⟨hc, hb, hi⟩
    · split
      · exact ⟨hc, hb, hi⟩
      · next ch heq =>
        split
        · exact ⟨hc, hb, hi⟩
        · split
          · exact ⟨hc, hb, hi⟩
          · split
            · exact ⟨hc, hb, hi⟩
            · split
              · exact ⟨hc, hb, hi⟩
              · split
                · next hok =>
                  have hp : (g.player.split_hand
                      g.player.current_hand_index).2 = g.player :=
                    split_hand_fail _ _ (Bool.eq_false_iff.mpr hok)
                  rw [hp]
                  exact ⟨hc, hb, hi⟩
                · obtain ⟨hcs, hbs⟩ := split_hand_inv g.player
                    g.player.current_hand_index hc hb
                  exact ⟨hcs, dealToOneCardHands_bets _ _ hbs, hi⟩
  | surrender =>
    show ChipsInv (g.surrender).2
    rw [BJGame.surrender]
    dsimp only
    split
    · exact ⟨hc, hb, hi⟩
    · split
      · exact ⟨hc, hb, hi⟩
      · split
        · exact ⟨hc, hb, hi⟩
        · next ch heq =>
          split
          · exact ⟨hc, hb, hi⟩
          · split
            · exact ⟨hc, hb, hi⟩
            · split
              · exact ⟨hc, hb, hi⟩
              · have hbet : 0 ≤ ch.bet := current_hand_bet_nonneg heq hb
                have hrefund : (0 : Int) ≤ ch.bet / 2 :=
                  Int.ediv_nonneg hbet (by norm_num)
                have hbP : BetsNonneg ((g.player.updateHand
                    g.player.current_hand_index
                    { ch with is_surrendered := true }).hands) :=
                  BetsNonneg_set hb hbet
                split
                · exact move_to_next_inv _
                    ⟨by dsimp only [Player.updateHand]; omega, hbP, hi⟩
                · exact determine_results_inv _ (move_to_next_inv _
                    ⟨by dsimp only [Player.updateHand]; omega, hbP, hi⟩)
  | insurance_decision d =>
    show ChipsInv (g.insurance_decision d).2
    rw [BJGame.insurance_decision]
    dsimp only
    split
    · exact ⟨hc, hb, hi⟩
    · split
      · exact ⟨hc, hb, hi⟩
      · split
        · exact ⟨hc, hb, hi⟩
        · next ch heq =>
          have hbet : 0 ≤ ch.bet := current_hand_bet_nonneg heq hb
          split
          · split
            · exact ⟨by dsimp only; omega, hb, hi⟩
            · split
              · split
                · exact ⟨le_trans hc (push_chips _ _ hb),
                    by rw [push_hands]; exact hb, hi⟩
                · exact ⟨le_trans hc (win_chips _ _ _ hb),
                    by rw [win_hands]; exact hb, hi⟩
              · exact ⟨hc, hb, hi⟩
          · split
            · split
              · exact ⟨hc, hb, hi⟩
              · split
                · exact dealer_peek_inv _ ⟨by dsimp only; omega, hb, hi⟩
                · exact dealer_peek_inv _ ⟨by dsimp only; omega, hb, hi⟩
            · split
              · split
                · exact dealer_peek_inv _ ⟨hc, hb, hi⟩
                · exact dealer_peek_inv _ ⟨hc, hb, hi⟩
              · exact ⟨hc, hb, hi⟩
  | settle => exact determine_results_inv g ⟨hc, hb, hi⟩

/-- Witness for C10: the funds invariant holds on a concrete betting-phase
game with 1000 chips and one empty hand, and the theorem preserves it
across a concrete bet of 100. -/
theorem operations_keep_chips_nonneg_witness :
    ChipsInv
      ({ num_decks := 6, deck := { cards := [], num_decks := 6 },
         player := { chips := 1000, hands := [Hand.empty],
                     current_hand_index := 0, total_wins := 0,
                     total_losses := 0, total_blackjacks := 0 },
         dealer := { hand := [], hole_card_hidden := true },
         state := GameState.BETTING, result := none, min_bet := 5,
         max_bet := 500, dealer_hits_soft_17 := false,
         insurance_offer_active := false, insurance_for_hand_index := none,
         insurance_amount := 0, insurance_taken := false,
         even_money_offer_active := false, insurance_outcome := none,
         auto_mode_active := false, auto_hands_remaining := 0,
         auto_default_bet := 0, auto_insurance_mode := none,
         auto_strategy := "basic", auto_betting_strategy := "fixed",
         auto_bet_percentage := none, auto_double_down_pref := "recommended",
         auto_split_pref := "recommended", auto_surrender_pref := "recommended",
         auto_progressive_bet := 0, auto_last_result := none,
         auto_status := none, dealer_peeked := false,
         force_dealer_hand := none, pending_forced_dealer_cards := none } : BJGame) ∧
    ChipsInv (applyGameOp (GameOp.place_bet 100)
      ({ num_decks := 6, deck := { cards := [], num_decks := 6 },
         player := { chips := 1000, hands := [Hand.empty],
                     current_hand_index := 0, total_wins := 0,
                     total_losses := 0, total_blackjacks := 0 },
         dealer := { hand := [], hole_card_hidden := true },
         state := GameState.BETTING, result := none, min_bet := 5,
         max_bet := 500, dealer_hits_soft_17 := false,
         insurance_offer_active := false, insurance_for_hand_index := none,
         insurance_amount := 0, insurance_taken := false,
         even_money_offer_active := false, insurance_outcome := none,
         auto_mode_active := false, auto_hands_remaining := 0,
         auto_default_bet := 0, auto_insurance_mode := none,
         auto_strategy := "basic", auto_betting_strategy := "fixed",
         auto_bet_percentage := none, auto_double_down_pref := "recommended",
         auto_split_pref := "recommended", auto_surrender_pref := "recommended",
         auto_progressive_bet := 0, auto_last_result := none,
         auto_status := none, dealer_peeked := false,
         force_dealer_hand := none, pending_forced_dealer_cards := none } : BJGame)) :=
  ⟨⟨by decide, fun h hh => by rw [List.mem_singleton.mp hh]; decide,
      by decide⟩,
   operations_keep_chips_nonneg (GameOp.place_bet 100)
      ({ num_decks := 6, deck := { cards := [], num_decks := 6 },
         player := { chips := 1000, hands := [Hand.empty],
                     current_hand_index := 0, total_wins := 0,
                     total_losses := 0, total_blackjacks := 0 },
         dealer := { hand := [], hole_card_hidden := true },
         state := GameState.BETTING, result := none, min_bet := 5,
         max_bet := 500, dealer_hits_soft_17 := false,
         insurance_offer_active := false, insurance_for_hand_index := none,
         insurance_amount := 0, insurance_taken := false,
         even_money_offer_active := false, insurance_outcome := none,
         auto_mode_active := false, auto_hands_remaining := 0,
         auto_default_bet := 0, auto_insurance_mode := none,
         auto_strategy := "basic", auto_betting_strategy := "fixed",
         auto_bet_percentage := none, auto_double_down_pref := "recommended",
         auto_split_pref := "recommended", auto_surrender_pref := "recommended",
         auto_progressive_bet := 0, auto_last_result := none,
         auto_status := none, dealer_peeked := false,
         force_dealer_hand := none, pending_forced_dealer_cards := none } : BJGame)
      ⟨by decide, fun h hh => by rw [List.mem_singleton.mp hh]; decide,
        by decide⟩⟩

end Blackjack
